import Mathlib

/-!
nup_model: force field (`Force.cpp`) and polymer chain (`Polymer.cpp`)

A shallow embedding of the two translation units.  `TYPE_FLOAT` is read as an
arbitrary linearly ordered field `K` (exact arithmetic; instantiating `K := ℚ`
makes every definition below executable), the process-wide `WorldSettings`
statics are an explicit record that is threaded through every function that
mutates them, and the libm primitives `sqrt` and `exp` are parameters.
-/

set_option linter.unusedVariables false

namespace NupModel

/-! ## Declarations that live in headers outside the two translation units -/

/-- Modelled from the spec: the 3D vector value of `Vector3D.h` (three scalar
components, value semantics); the header itself is not among the sources. -/
@[ext] structure Vector3D (K : Type) where
  x : K
  y : K
  z : K
deriving DecidableEq

/-- Modelled from the spec: the libm primitives `sqrt` and `exp` used through
`Vector3D::magnitude` and `forceBondExp`; they are parameters of the model. -/
structure MathLib (K : Type) where
  sqrt : K → K
  exp : K → K

/-- Modelled from the spec: bond-law selector values of `WorldSettings.h`;
`forceBond` tests for `BOND_HOOKE` and `BOND_EXP` and treats every other value
as FENE. -/
inductive BondType where
  | BOND_HOOKE
  | BOND_EXP
  | BOND_FENE
deriving DecidableEq

/-- Modelled from the spec: cohesive-law selector values of `WorldSettings.h`;
every value other than `HYDROPHOBIC_NORMAL` selects the same-range law. -/
inductive HydrophobicType where
  | HYDROPHOBIC_NORMAL
  | HYDROPHOBIC_SAME_RANGE
deriving DecidableEq

/-- Modelled from the spec: repulsive-law selector values of `WorldSettings.h`;
every value other than `REPULSIVE_NORMAL` selects LJ(12,6). -/
inductive RepulsiveType where
  | REPULSIVE_NORMAL
  | REPULSIVE_LJ126
deriving DecidableEq

/-- Modelled from the spec: boundary-law selector values of `WorldSettings.h`;
`forceExternal` tests for `EXT_ZWALL` only. -/
inductive ExternalType where
  | EXT_ZWALL
  | EXT_NONE
deriving DecidableEq

/-- Modelled from the spec: initial-condition selector values of
`WorldSettings.h`; the constructor tests for `IC_LINE`, `IC_SAW` and `IC_RW`,
`IC_OTHER` stands for any further enumerator. -/
inductive InitialCondition where
  | IC_LINE
  | IC_SAW
  | IC_RW
  | IC_OTHER
deriving DecidableEq

/-- Modelled from the spec: the random-normal source behind
`WorldSettings::normalDistribution`: an infinite stream of samples and the
index of the next one to hand out. -/
structure NormalDistribution (K : Type) where
  draws : Nat → K
  next : Nat

/-- Modelled from the spec: the process-wide statics of `WorldSettings.h` read
or written by `Force.cpp` and `Polymer.cpp`.  The three diagnostic counters are
unbounded naturals. -/
structure WorldSettings (K : Type) where
  typeForceBond : BondType
  typeForceHydrophobic : HydrophobicType
  typeForceRepulsive : RepulsiveType
  typeForceExternal : ExternalType
  initialCondition : InitialCondition
  bondLength : K
  maxFENELengthSquared : K
  eLJ : K
  hydrophobicStrength : K
  hydrophobicCutoff : K
  coulombStrength : K
  offset : K
  normalDistribution : NormalDistribution K
  totalCountFENE : Nat
  errorCountFENE : Nat
  totalCountLJ : Nat

/-- Modelled from the spec: the particle kind passed to the `Particle`
constructor (`AMINO_ACID` is the only value the sources use). -/
inductive ParticleType where
  | AMINO_ACID
deriving DecidableEq

/-- Modelled from the spec: a `Particle *`, identified by the chain storage it
points into and the index of the bead there. -/
structure ParticleRef where
  owner : Nat
  index : Nat
deriving DecidableEq

/-- Modelled from the spec: the `Particle` entity of `Particle.h`: position,
pending displacement accumulator, kind, species tag, next-bead reference and
immovable flag. -/
structure Particle (K : Type) where
  r : Vector3D K
  dr : Vector3D K
  type : ParticleType
  tag : Char
  next : Option ParticleRef
  fixed : Bool

/-- The data members of `Polymer`: the bead count and the contiguous bead
storage. -/
structure Polymer (K : Type) where
  noOfMonomers : Nat
  chain : List (Particle K)

section Defs

variable {K : Type} [LinearOrderedField K]

namespace Vector3D

/-- Modelled from the spec: the default constructor `Vector3D()`, the zero
vector. -/
instance : Zero (Vector3D K) := ⟨⟨0, 0, 0⟩⟩

/-- Modelled from the spec: `Vector3D::operator+`. -/
instance : Add (Vector3D K) := ⟨fun a b => ⟨a.x + b.x, a.y + b.y, a.z + b.z⟩⟩

/-- Modelled from the spec: binary `Vector3D::operator-`. -/
instance : Sub (Vector3D K) := ⟨fun a b => ⟨a.x - b.x, a.y - b.y, a.z - b.z⟩⟩

/-- Modelled from the spec: unary `Vector3D::operator-`. -/
instance : Neg (Vector3D K) := ⟨fun a => ⟨-a.x, -a.y, -a.z⟩⟩

/-- Modelled from the spec: `operator*(TYPE_FLOAT, Vector3D)`. -/
def smul (s : K) (v : Vector3D K) : Vector3D K := ⟨s * v.x, s * v.y, s * v.z⟩

/-- Modelled from the spec: `Vector3D::operator*(TYPE_FLOAT)`. -/
def mulScalar (v : Vector3D K) (s : K) : Vector3D K := ⟨v.x * s, v.y * s, v.z * s⟩

/-- Modelled from the spec: `Vector3D::operator/(TYPE_FLOAT)`. -/
def divScalar (v : Vector3D K) (s : K) : Vector3D K := ⟨v.x / s, v.y / s, v.z / s⟩

/-- Modelled from the spec: the dot product `Vector3D::operator*(Vector3D)`. -/
def dot (a b : Vector3D K) : K := a.x * b.x + a.y * b.y + a.z * b.z

/-- Modelled from the spec: `Vector3D::magnitudeSquared`. -/
def magnitudeSquared (v : Vector3D K) : K := v.x * v.x + v.y * v.y + v.z * v.z

/-- Modelled from the spec: `Vector3D::magnitude`, the square root of the
squared magnitude. -/
def magnitude (m : MathLib K) (v : Vector3D K) : K := m.sqrt (magnitudeSquared v)

end Vector3D

open Vector3D

/-- Modelled from the spec: a default-constructed `Particle`, as left in the
storage by `chain.resize`. -/
instance : Inhabited (Particle K) :=
  ⟨⟨0, 0, ParticleType.AMINO_ACID, Char.ofNat 0, none, false⟩⟩

/-- Modelled from the spec: the five-argument `Particle` constructor; the
displacement accumulator starts at zero. -/
def Particle.new (position : Vector3D K) (type : ParticleType) (tag : Char)
    (next : Option ParticleRef) (fixed : Bool) : Particle K :=
  ⟨position, 0, type, tag, next, fixed⟩

/-- Modelled from the spec: `NormalDistribution::generateUnitNormal`, which
hands out the next sample of the stream. -/
def generateUnitNormal (nd : NormalDistribution K) : K × NormalDistribution K :=
  (nd.draws nd.next, { nd with next := nd.next + 1 })

/-- Specification of an exact square root on the non-negative scalars. -/
def IsSqrt (sqrt : K → K) : Prop :=
  ∀ x : K, 0 ≤ x → 0 ≤ sqrt x ∧ sqrt x * sqrt x = x

/-! ## Force.cpp -/

/-- `forceBondHooke`, Force.cpp 37-40. -/
def forceBondHooke (r : Vector3D K) : Vector3D K := -r

/-- `forceBondFENE`, Force.cpp 42-52. -/
def forceBondFENE (ws : WorldSettings K) (r : Vector3D K) : Vector3D K × WorldSettings K :=
  let ws1 := { ws with totalCountFENE := ws.totalCountFENE + 1 }
  let magSquared := magnitudeSquared r
  if magSquared ≥ ws1.maxFENELengthSquared then
    (forceBondHooke r, { ws1 with errorCountFENE := ws1.errorCountFENE + 1 })
  else
    (divScalar (-r) (1 - magSquared / ws1.maxFENELengthSquared), ws1)

/-- `forceBondExp`, Force.cpp 54-57. -/
def forceBondExp (m : MathLib K) (ws : WorldSettings K) (r : Vector3D K) : Vector3D K :=
  mulScalar (-r) (m.exp (magnitudeSquared r / ws.maxFENELengthSquared))

/-- `forceBond`, Force.cpp 4-11. -/
def forceBond (m : MathLib K) (ws : WorldSettings K) (r : Vector3D K) :
    Vector3D K × WorldSettings K :=
  if ws.typeForceBond = BondType.BOND_HOOKE then (forceBondHooke r, ws)
  else if ws.typeForceBond = BondType.BOND_EXP then (forceBondExp m ws r, ws)
  else forceBondFENE ws r

/-- `forceLJ86Repulsive`, Force.cpp 73-88. -/
def forceLJ86Repulsive (ws : WorldSettings K) (r : Vector3D K) (size : K) :
    Vector3D K × WorldSettings K :=
  let r_mag_squared := magnitudeSquared r
  let c_squared := 3 * size * size
  if r_mag_squared > c_squared / 2 then (0, ws)
  else
    let forceMagnitude := 0.5 * ws.eLJ
      * (0.5 * (c_squared / r_mag_squared) ^ 4 - (c_squared / r_mag_squared) ^ 3)
    let ws1 := { ws with totalCountLJ := ws.totalCountLJ + 1 }
    (divScalar (mulScalar r forceMagnitude) r_mag_squared, ws1)

/-- `forceLJ126Repulsive`, Force.cpp 106-121. -/
def forceLJ126Repulsive (ws : WorldSettings K) (r : Vector3D K) (size : K) :
    Vector3D K × WorldSettings K :=
  let r_mag_squared := magnitudeSquared r
  let c_squared := 3 * size * size
  if r_mag_squared > c_squared / 2 then (0, ws)
  else
    let cr3 := (c_squared / r_mag_squared) ^ 3
    let forceMagnitude := 0.75 * ws.eLJ * (0.125 * cr3 ^ 2 - cr3)
    let ws1 := { ws with totalCountLJ := ws.totalCountLJ + 1 }
    (divScalar (mulScalar r forceMagnitude) r_mag_squared, ws1)

/-- `forceLJ86Attractive`, Force.cpp 125-138. -/
def forceLJ86Attractive (ws : WorldSettings K) (r : Vector3D K) (size : K) : Vector3D K :=
  let r_mag_squared := magnitudeSquared r
  let c_squared := 3 * size * size
  if r_mag_squared < c_squared / 2 ∨ r_mag_squared > size * size * ws.bondLength
      * ws.bondLength * ws.hydrophobicCutoff * ws.hydrophobicCutoff then 0
  else
    let forceMagnitude := 0.5 * ws.hydrophobicStrength
      * (0.5 * (c_squared / r_mag_squared) ^ 4 - (c_squared / r_mag_squared) ^ 3)
    divScalar (mulScalar r forceMagnitude) r_mag_squared

/-- `forceLJ86AttractiveSameRange`, Force.cpp 158-173. -/
def forceLJ86AttractiveSameRange (m : MathLib K) (ws : WorldSettings K) (r : Vector3D K)
    (size : K) : Vector3D K :=
  let r_mag_squared := magnitudeSquared r + (1 - size) * (1 - size) * 1.5
    + 2 * magnitude m r * (1 - size) * ws.bondLength
  let c_squared : K := 3
  if r_mag_squared < c_squared / 2 ∨ r_mag_squared > ws.bondLength * ws.bondLength
      * ws.hydrophobicCutoff * ws.hydrophobicCutoff then 0
  else
    let forceMagnitude := 0.75 * ws.hydrophobicStrength
      * (0.5 * (c_squared / r_mag_squared) ^ 4 - (c_squared / r_mag_squared) ^ 3)
    divScalar (mulScalar r forceMagnitude) r_mag_squared

/-- `forceCohesive`, Force.cpp 13-18. -/
def forceCohesive (m : MathLib K) (ws : WorldSettings K) (r : Vector3D K) (size : K) :
    Vector3D K :=
  if ws.typeForceHydrophobic = HydrophobicType.HYDROPHOBIC_NORMAL then
    forceLJ86Attractive ws r size
  else forceLJ86AttractiveSameRange m ws r size

/-- `forceChargeCoulomb`, Force.cpp 176-179. -/
def forceChargeCoulomb (m : MathLib K) (ws : WorldSettings K) (r : Vector3D K) (charge : K) :
    Vector3D K :=
  divScalar (smul (ws.coulombStrength * charge) r) (magnitude m r * magnitudeSquared r)

/-- `noiseTerm(TYPE_FLOAT stddev)`, Force.cpp 191-196; the three samples are
taken in the order x, y, z. -/
def noiseTerm (ws : WorldSettings K) (stddev : K) : Vector3D K × WorldSettings K :=
  let a := generateUnitNormal ws.normalDistribution
  let b := generateUnitNormal a.2
  let c := generateUnitNormal b.2
  (⟨stddev * a.1, stddev * b.1, stddev * c.1⟩, { ws with normalDistribution := c.2 })

/-- `Polymer::distanceCheck`, Polymer.cpp 152-160. -/
def distanceCheck (ws : WorldSettings K) (r : Vector3D K) : Bool :=
  let r_mag_squared := magnitudeSquared r
  let frac_bondlength_squared := ws.bondLength * ws.bondLength
  if r_mag_squared > frac_bondlength_squared then false else true

/-- The inner `for (j = 2; valid && j + i < noOfMonomers; j++)` loop of the
self-avoiding walk, Polymer.cpp 53-55: the value of `valid` when it exits. -/
def sawValid (ws : WorldSettings K) (chain : List (Particle K)) (position : Vector3D K)
    (i noOfMonomers : Nat) : Bool :=
  (List.range' 2 (noOfMonomers - i - 2)).foldl
    (fun valid j =>
      if valid && distanceCheck ws ((chain.getD (i + j) default).r - position) then false
      else valid)
    true

/-- The `do ... while (!valid)` loop of the self-avoiding walk, Polymer.cpp
46-56, run for at most `fuel` iterations: `none` when the fuel runs out before
a draw is accepted. -/
def sawLoop (m : MathLib K) (chain : List (Particle K)) (i noOfMonomers : Nat) :
    Nat → WorldSettings K → Option (Vector3D K × WorldSettings K)
  | 0, _ => none
  | fuel + 1, ws =>
    let sn := noiseTerm ws 1
    let step := sn.1
    let position := (chain.getD (i + 1) default).r
      + divScalar (smul sn.2.bondLength step) (magnitude m step)
    if sawValid sn.2 chain position i noOfMonomers then some (position, sn.2)
    else sawLoop m chain i noOfMonomers fuel sn.2

/-- The position chosen for bead `i` by one pass of the construction loop body,
Polymer.cpp 25-66. -/
def placeBead (m : MathLib K) (fuel : Nat) (ws : WorldSettings K) (noOfMonomers : Nat)
    (start orientation : Vector3D K) (chain : List (Particle K)) (i : Nat) :
    Option (Vector3D K × WorldSettings K) :=
  if ws.initialCondition = InitialCondition.IC_LINE then
    some (start + smul ((i : K) * ws.bondLength) orientation, ws)
  else if i + 1 = noOfMonomers then some (start, ws)
  else
    match (if ws.initialCondition = InitialCondition.IC_SAW then
        sawLoop m chain i noOfMonomers fuel ws else some (0, ws)) with
    | none => none
    | some pw =>
      if pw.2.initialCondition = InitialCondition.IC_RW then
        let sn := noiseTerm pw.2 1
        let step := sn.1
        some ((chain.getD (i + 1) default).r
          + divScalar (smul sn.2.bondLength step) (magnitude m step), sn.2)
      else some pw

/-- The construction loop `for (i = noOfMonomers - 1; i > -1; i--)`, Polymer.cpp
23-72: `buildLoop ... k` runs the passes for `i = k - 1, ..., 0`. -/
def buildLoop (m : MathLib K) (fuel : Nat) (self noOfMonomers : Nat) (sequence : List Char)
    (fixedStart : Bool) (start orientation : Vector3D K) :
    Nat → List (Particle K) → WorldSettings K → Option (List (Particle K) × WorldSettings K)
  | 0, chain, ws => some (chain, ws)
  | i + 1, chain, ws =>
    let fixed := decide (i = 0) && fixedStart
    let next : Option ParticleRef :=
      if i + 1 < noOfMonomers then some ⟨self, i + 1⟩ else none
    match placeBead m fuel ws noOfMonomers start orientation chain i with
    | none => none
    | some pw =>
      buildLoop m fuel self noOfMonomers sequence fixedStart start orientation i
        (chain.set i (Particle.new pw.1 ParticleType.AMINO_ACID
          (sequence.getD i (Char.ofNat 0)) next fixed))
        pw.2

/-- The constructor `Polymer::Polymer(noOfMonomers, sequence, random,
fixedStart, start, orientation, particles)`, Polymer.cpp 7-77.  `self`
identifies the storage of the new chain, `fuel` bounds every run of the
self-avoiding-walk retry loop; the result is the new chain, the caller's
collection and the settings afterwards. -/
def Polymer.new (m : MathLib K) (fuel : Nat) (ws : WorldSettings K) (self : Nat)
    (noOfMonomers : Nat) (sequence : List Char) (random : Bool) (fixedStart : Bool)
    (start orientation : Vector3D K) (particles : List ParticleRef) :
    Option (Polymer K × List ParticleRef × WorldSettings K) :=
  match buildLoop m fuel self noOfMonomers sequence fixedStart start orientation
      noOfMonomers (List.replicate noOfMonomers default) ws with
  | none => none
  | some cw =>
    some (⟨noOfMonomers, cw.1⟩,
      (List.range noOfMonomers).foldl (fun ps i => ps ++ [⟨self, i⟩]) particles, cw.2)

/-- `Polymer::endToEndDistanceSquared`, Polymer.cpp 83-87. -/
def Polymer.endToEndDistanceSquared (p : Polymer K) : K :=
  let diff := (p.chain.getD 0 default).r - (p.chain.getD (p.noOfMonomers - 1) default).r
  dot diff diff

/-- `Polymer::endToEndVector`, Polymer.cpp 89-94. -/
def Polymer.endToEndVector (p : Polymer K) : Vector3D K :=
  if p.noOfMonomers = 1 then 0
  else (p.chain.getD (p.noOfMonomers - 1) default).r - (p.chain.getD 0 default).r

/-- `Polymer::centreOfMass`, Polymer.cpp 96-104. -/
def Polymer.centreOfMass (p : Polymer K) : Vector3D K :=
  divScalar
    ((List.range p.noOfMonomers).foldl (fun rCOM i => rCOM + (p.chain.getD i default).r) 0)
    (p.noOfMonomers : K)

/-- `Polymer::radiusOfGyrationSquared`, Polymer.cpp 106-116. -/
def Polymer.radiusOfGyrationSquared (p : Polymer K) : K :=
  let rCOM := p.centreOfMass
  (List.range p.noOfMonomers).foldl
    (fun rGsquared i =>
      rGsquared + dot ((p.chain.getD i default).r - rCOM) ((p.chain.getD i default).r - rCOM))
    0 / (p.noOfMonomers : K)

/-- `Polymer::averageBondLengthSquared`, Polymer.cpp 119-133. -/
def Polymer.averageBondLengthSquared (p : Polymer K) : K :=
  if p.noOfMonomers = 1 then 0
  else
    let acc := (List.range' 1 (p.noOfMonomers - 1)).foldl
      (fun (a : Vector3D K × K) i =>
        let d := (p.chain.getD i default).r - (p.chain.getD (i - 1) default).r
        (a.1 + d, a.2 + dot d d))
      (0, 0)
    acc.2 / ((p.noOfMonomers - 1 : Nat) : K)

/-- The update `dr += f` of a bead's displacement accumulator. -/
def Particle.addDr (b : Particle K) (f : Vector3D K) : Particle K :=
  { b with dr := b.dr + f }

/-- The body of the interior loop of `simulate`, Polymer.cpp 143-144, for bead
`i`; the left operand of `+` is evaluated first. -/
def simulateStep (m : MathLib K) (cw : List (Particle K) × WorldSettings K) (i : Nat) :
    List (Particle K) × WorldSettings K :=
  let chain := cw.1
  let a := forceBond m cw.2 ((chain.getD i default).r - (chain.getD (i + 1) default).r)
  let b := forceBond m a.2 ((chain.getD i default).r - (chain.getD (i - 1) default).r)
  (chain.set i ((chain.getD i default).addDr (a.1 + b.1)), b.2)

/-- `Polymer::simulate`, Polymer.cpp 136-149 (the argument `t` is unused). -/
def Polymer.simulate (m : MathLib K) (ws : WorldSettings K) (p : Polymer K) (t : K) :
    Polymer K × WorldSettings K :=
  if p.noOfMonomers > 1 then
    let c0 := p.chain
    let f0 := forceBond m ws ((c0.getD 0 default).r - (c0.getD 1 default).r)
    let c1 := c0.set 0 ((c0.getD 0 default).addDr f0.1)
    let mid := (List.range' 1 (p.noOfMonomers - 2)).foldl (simulateStep m) (c1, f0.2)
    let c2 := mid.1
    let last := p.noOfMonomers - 1
    let fl := forceBond m mid.2 ((c2.getD last default).r - (c2.getD (p.noOfMonomers - 2) default).r)
    ({ p with chain := c2.set last ((c2.getD last default).addDr fl.1) }, fl.2)
  else (p, ws)

/-! ## Transformations and concrete inputs used in the statements -/

/-- The chain with the vector `t` added to every bead position (a uniform
translation). -/
def Polymer.translate (p : Polymer K) (t : Vector3D K) : Polymer K :=
  { p with chain := p.chain.map (fun b => { b with r := b.r + t }) }


/-- What one `forceBondFENE` call on the separation `v` adds to
`errorCountFENE` when the maximum squared length is `M`: 1 if the length test
`|v|^2 >= M` succeeds, 0 otherwise. -/
def feneViolation (M : K) (v : Vector3D K) : Nat :=
  if magnitudeSquared v ≥ M then 1 else 0

/-- The number of bonds `(i, i + 1)` of the chain whose squared length is at
least `maxFENELengthSquared`. -/
def overstretchedBonds (ws : WorldSettings K) (p : Polymer K) : Nat :=
  (List.range (p.noOfMonomers - 1)).countP (fun i =>
    decide (magnitudeSquared ((p.chain.getD i default).r - (p.chain.getD (i + 1) default).r)
      ≥ ws.maxFENELengthSquared))

/-- The effective squared distance that `forceLJ86AttractiveSameRange` computes
first (its local `r_mag_squared`, Force.cpp 160-162). -/
def effectiveDistanceSquared (m : MathLib K) (ws : WorldSettings K) (r : Vector3D K)
    (size : K) : K :=
  magnitudeSquared r + (1 - size) * (1 - size) * 1.5
    + 2 * magnitude m r * (1 - size) * ws.bondLength

/-- The step vector that `noiseTerm(1)` builds from the three samples starting
at index `k` of the stream `draws`. -/
def stepAt (draws : Nat → K) (k : Nat) : Vector3D K :=
  ⟨draws k, draws (k + 1), draws (k + 2)⟩

/-- None of the steps that successive `noiseTerm(1)` calls will draw from the
current position of the sample stream is the zero vector. -/
def NoZeroStep (ws : WorldSettings K) : Prop :=
  ∀ j : Nat, stepAt ws.normalDistribution.draws (ws.normalDistribution.next + 3 * j) ≠ 0

/-- A sample configuration: harmonic bonds, LJ(8,6) repulsion, z-walls,
straight-line construction, unit bond length and strengths, maximum squared FENE
length 4, a constant sample stream and all counters at zero. -/
def sampleSettings (K : Type) [LinearOrderedField K] : WorldSettings K where
  typeForceBond := BondType.BOND_HOOKE
  typeForceHydrophobic := HydrophobicType.HYDROPHOBIC_NORMAL
  typeForceRepulsive := RepulsiveType.REPULSIVE_NORMAL
  typeForceExternal := ExternalType.EXT_ZWALL
  initialCondition := InitialCondition.IC_LINE
  bondLength := 1
  maxFENELengthSquared := 4
  eLJ := 1
  hydrophobicStrength := 1
  hydrophobicCutoff := 3
  coulombStrength := 1
  offset := 0
  normalDistribution := ⟨fun _ => 1, 0⟩
  totalCountFENE := 0
  errorCountFENE := 0
  totalCountLJ := 0

/-- A sample configuration for the self-avoiding walk: `sampleSettings` with
the policy `IC_SAW` and the given bond length and sample stream. -/
def sawSettings (K : Type) [LinearOrderedField K] (bondLength : K)
    (nd : NormalDistribution K) : WorldSettings K :=
  { sampleSettings K with
    initialCondition := InitialCondition.IC_SAW
    bondLength := bondLength
    normalDistribution := nd }

/-- A sample stream whose every step is the unit vector `(1, 0, 0)`. -/
def xAxisDraws (K : Type) [LinearOrderedField K] : NormalDistribution K :=
  ⟨fun k => if k % 3 = 0 then 1 else 0, 0⟩

/-- A bead at position `r` with an empty displacement accumulator. -/
def beadAt (r : Vector3D K) : Particle K :=
  Particle.new r ParticleType.AMINO_ACID (Char.ofNat 65) none false

end Defs

/-! ## Vector algebra -/

section VectorLemmas

variable {K : Type} [LinearOrderedField K]

open Vector3D

@[simp] theorem Vector3D.zero_x : (0 : Vector3D K).x = 0 := rfl
@[simp] theorem Vector3D.zero_y : (0 : Vector3D K).y = 0 := rfl
@[simp] theorem Vector3D.zero_z : (0 : Vector3D K).z = 0 := rfl
@[simp] theorem Vector3D.add_x (a b : Vector3D K) : (a + b).x = a.x + b.x := rfl
@[simp] theorem Vector3D.add_y (a b : Vector3D K) : (a + b).y = a.y + b.y := rfl
@[simp] theorem Vector3D.add_z (a b : Vector3D K) : (a + b).z = a.z + b.z := rfl
@[simp] theorem Vector3D.sub_x (a b : Vector3D K) : (a - b).x = a.x - b.x := rfl
@[simp] theorem Vector3D.sub_y (a b : Vector3D K) : (a - b).y = a.y - b.y := rfl
@[simp] theorem Vector3D.sub_z (a b : Vector3D K) : (a - b).z = a.z - b.z := rfl
@[simp] theorem Vector3D.neg_x (a : Vector3D K) : (-a).x = -a.x := rfl
@[simp] theorem Vector3D.neg_y (a : Vector3D K) : (-a).y = -a.y := rfl
@[simp] theorem Vector3D.neg_z (a : Vector3D K) : (-a).z = -a.z := rfl

theorem Vector3D.magnitudeSquared_nonneg (v : Vector3D K) : 0 ≤ magnitudeSquared v := by
  unfold magnitudeSquared
  have hx := mul_self_nonneg v.x
  have hy := mul_self_nonneg v.y
  have hz := mul_self_nonneg v.z
  linarith

theorem Vector3D.magnitudeSquared_pos {v : Vector3D K} (hv : v ≠ 0) :
    0 < magnitudeSquared v := by
  rcases lt_or_eq_of_le (magnitudeSquared_nonneg v) with h | h
  · exact h
  · exfalso
    apply hv
    unfold magnitudeSquared at h
    have hx := mul_self_nonneg v.x
    have hy := mul_self_nonneg v.y
    have hz := mul_self_nonneg v.z
    have h1 : v.x * v.x = 0 := by linarith
    have h2 : v.y * v.y = 0 := by linarith
    have h3 : v.z * v.z = 0 := by linarith
    ext
    · exact mul_self_eq_zero.mp h1
    · exact mul_self_eq_zero.mp h2
    · exact mul_self_eq_zero.mp h3

theorem Vector3D.magnitudeSquared_neg (v : Vector3D K) :
    magnitudeSquared (-v) = magnitudeSquared v := by
  simp [magnitudeSquared]

theorem Vector3D.magnitudeSquared_divScalar (v : Vector3D K) (d : K) :
    magnitudeSquared (divScalar v d) = magnitudeSquared v / (d * d) := by
  simp only [magnitudeSquared, divScalar, div_mul_div_comm, add_div]

theorem Vector3D.magnitudeSquared_smul (s : K) (v : Vector3D K) :
    magnitudeSquared (smul s v) = s * s * magnitudeSquared v := by
  simp only [magnitudeSquared, smul]
  ring

theorem IsSqrt.lt {sqrt : K → K} (hs : IsSqrt sqrt) {a b : K} (ha : 0 ≤ a) (hab : a < b) :
    sqrt a < sqrt b := by
  obtain ⟨ha0, ha2⟩ := hs a ha
  obtain ⟨hb0, hb2⟩ := hs b (le_trans ha hab.le)
  by_contra hcon
  have hle : sqrt b ≤ sqrt a := not_lt.mp hcon
  have : sqrt b * sqrt b ≤ sqrt a * sqrt a := mul_self_le_mul_self hb0 hle
  linarith

theorem IsSqrt.mul_self {sqrt : K → K} (hs : IsSqrt sqrt) {y : K} (hy : 0 ≤ y) :
    sqrt (y * y) = y := by
  obtain ⟨h0, h2⟩ := hs (y * y) (mul_self_nonneg y)
  exact (mul_self_inj h0 hy).mp h2

theorem IsSqrt.real : IsSqrt Real.sqrt := fun x hx =>
  ⟨Real.sqrt_nonneg x, Real.mul_self_sqrt hx⟩

end VectorLemmas

/-! ## Bond laws -/

section BondLaws

variable {K : Type} [LinearOrderedField K]

open Vector3D

/-- C1: when the squared separation reaches `maxFENELengthSquared`, the FENE
law returns exactly the harmonic force `-r`, and the violation counter
`errorCountFENE` grows by exactly one. -/
theorem forceBondFENE_fallback (ws : WorldSettings K) (r : Vector3D K)
    (h : magnitudeSquared r ≥ ws.maxFENELengthSquared) :
    (forceBondFENE ws r).1 = forceBondHooke r ∧ (forceBondFENE ws r).1 = -r
      ∧ (forceBondFENE ws r).2.errorCountFENE = ws.errorCountFENE + 1 := by
  simp [forceBondFENE, forceBondHooke, h]

theorem forceBondFENE_fallback_witness :
    magnitudeSquared (⟨2, 0, 0⟩ : Vector3D ℚ) ≥ (sampleSettings ℚ).maxFENELengthSquared
      ∧ (forceBondFENE (sampleSettings ℚ) ⟨2, 0, 0⟩).1 = forceBondHooke ⟨2, 0, 0⟩
      ∧ (forceBondFENE (sampleSettings ℚ) ⟨2, 0, 0⟩).1 = -⟨2, 0, 0⟩
      ∧ (forceBondFENE (sampleSettings ℚ) ⟨2, 0, 0⟩).2.errorCountFENE
          = (sampleSettings ℚ).errorCountFENE + 1 :=
  ⟨by norm_num [magnitudeSquared, sampleSettings],
    forceBondFENE_fallback (sampleSettings ℚ) ⟨2, 0, 0⟩
      (by norm_num [magnitudeSquared, sampleSettings])⟩

/-- C2, refuted as stated: at the zero separation (squared length 0, below the
maximum 4) the FENE force coincides with the harmonic force, so its magnitude
does not strictly exceed the harmonic one, whatever `sqrt` is. -/
theorem forceBondFENE_zero_not_exceeds :
    magnitudeSquared (0 : Vector3D ℚ) < (sampleSettings ℚ).maxFENELengthSquared
      ∧ (forceBondFENE (sampleSettings ℚ) 0).1 = forceBondHooke 0
      ∧ ¬ (magnitudeSquared (forceBondHooke (0 : Vector3D ℚ))
            < magnitudeSquared (forceBondFENE (sampleSettings ℚ) 0).1)
      ∧ ∀ m : MathLib ℚ, ¬ (magnitude m (forceBondHooke (0 : Vector3D ℚ))
            < magnitude m (forceBondFENE (sampleSettings ℚ) 0).1) := by
  have h1 : (forceBondFENE (sampleSettings ℚ) 0).1 = forceBondHooke 0 := by
    ext <;> norm_num [forceBondFENE, forceBondHooke, sampleSettings, magnitudeSquared, divScalar]
  refine ⟨by norm_num [magnitudeSquared, sampleSettings], h1, ?_, ?_⟩
  · rw [h1]
    exact lt_irrefl _
  · intro m
    rw [h1]
    exact lt_irrefl _

/-- C2 (amended): for every nonzero separation `r` with squared length below
`maxFENELengthSquared`, the FENE force is strictly larger than the harmonic
force, both in squared magnitude and (for an exact `sqrt`) in magnitude, and
the harmonic magnitude is `|r|`. -/
theorem forceBondFENE_exceeds_hooke (m : MathLib K) (hs : IsSqrt m.sqrt)
    (ws : WorldSettings K) (r : Vector3D K) (hr : r ≠ 0)
    (h : magnitudeSquared r < ws.maxFENELengthSquared) :
    magnitudeSquared (forceBondHooke r) < magnitudeSquared (forceBondFENE ws r).1
      ∧ magnitude m (forceBondHooke r) < magnitude m (forceBondFENE ws r).1
      ∧ magnitude m (forceBondHooke r) = magnitude m r := by
  have hpos : 0 < magnitudeSquared r := magnitudeSquared_pos hr
  have hM : 0 < ws.maxFENELengthSquared := lt_trans hpos h
  have hq1 : magnitudeSquared r / ws.maxFENELengthSquared < 1 := (div_lt_one hM).mpr h
  have hq0 : 0 < magnitudeSquared r / ws.maxFENELengthSquared := div_pos hpos hM
  have hd0 : 0 < 1 - magnitudeSquared r / ws.maxFENELengthSquared := by linarith
  have hd1 : 1 - magnitudeSquared r / ws.maxFENELengthSquared < 1 := by linarith
  have hdd0 : 0 < (1 - magnitudeSquared r / ws.maxFENELengthSquared)
      * (1 - magnitudeSquared r / ws.maxFENELengthSquared) := mul_pos hd0 hd0
  have hdd1 : (1 - magnitudeSquared r / ws.maxFENELengthSquared)
      * (1 - magnitudeSquared r / ws.maxFENELengthSquared) < 1 := by nlinarith
  have hF : (forceBondFENE ws r).1
      = divScalar (-r) (1 - magnitudeSquared r / ws.maxFENELengthSquared) := by
    simp [forceBondFENE, not_le.mpr h]
  have hsq : magnitudeSquared (forceBondHooke r) < magnitudeSquared (forceBondFENE ws r).1 := by
    rw [hF, magnitudeSquared_divScalar, forceBondHooke, magnitudeSquared_neg, lt_div_iff₀ hdd0]
    nlinarith
  refine ⟨hsq, hs.lt (magnitudeSquared_nonneg _) hsq, ?_⟩
  simp [magnitude, forceBondHooke, magnitudeSquared_neg]

theorem forceBondFENE_exceeds_hooke_witness :
    (⟨1, 0, 0⟩ : Vector3D ℝ) ≠ 0
      ∧ magnitudeSquared (⟨1, 0, 0⟩ : Vector3D ℝ) < (sampleSettings ℝ).maxFENELengthSquared
      ∧ magnitudeSquared (forceBondHooke (⟨1, 0, 0⟩ : Vector3D ℝ))
          < magnitudeSquared (forceBondFENE (sampleSettings ℝ) ⟨1, 0, 0⟩).1
      ∧ magnitude ⟨Real.sqrt, Real.exp⟩ (forceBondHooke (⟨1, 0, 0⟩ : Vector3D ℝ))
          < magnitude ⟨Real.sqrt, Real.exp⟩ (forceBondFENE (sampleSettings ℝ) ⟨1, 0, 0⟩).1
      ∧ magnitude ⟨Real.sqrt, Real.exp⟩ (forceBondHooke (⟨1, 0, 0⟩ : Vector3D ℝ))
          = magnitude ⟨Real.sqrt, Real.exp⟩ (⟨1, 0, 0⟩ : Vector3D ℝ) :=
  have h0 : (⟨1, 0, 0⟩ : Vector3D ℝ) ≠ 0 := fun h => one_ne_zero (congrArg Vector3D.x h)
  have h1 : magnitudeSquared (⟨1, 0, 0⟩ : Vector3D ℝ)
      < (sampleSettings ℝ).maxFENELengthSquared := by
    norm_num [magnitudeSquared, sampleSettings]
  ⟨h0, h1, forceBondFENE_exceeds_hooke ⟨Real.sqrt, Real.exp⟩ IsSqrt.real
    (sampleSettings ℝ) ⟨1, 0, 0⟩ h0 h1⟩

end BondLaws

/-! ## Repulsive and charge laws -/

section PairLaws

variable {K : Type} [LinearOrderedField K]

open Vector3D

theorem Vector3D.divScalar_mulScalar (r : Vector3D K) (f s : K) :
    divScalar (mulScalar r f) s = smul (f / s) r := by
  ext <;> simp only [divScalar, mulScalar, smul] <;> ring

/-- C3: `forceLJ86Repulsive` is the zero vector beyond the cutoff
`|r|^2 > 1.5 * size^2`; within the cutoff, for nonzero `r` and `eLJ >= 0`, it
is `k * r` for a scalar `k >= 0`. -/
theorem forceLJ86Repulsive_cutoff_direction (ws : WorldSettings K) (r : Vector3D K) (size : K) :
    (magnitudeSquared r > 1.5 * size ^ 2 → (forceLJ86Repulsive ws r size).1 = 0)
      ∧ (¬ magnitudeSquared r > 1.5 * size ^ 2 → r ≠ 0 → 0 ≤ ws.eLJ →
          ∃ k : K, 0 ≤ k ∧ (forceLJ86Repulsive ws r size).1 = smul k r) := by
  have hc : 3 * size * size / 2 = 1.5 * size ^ 2 := by norm_num; ring
  constructor
  · intro h
    have h2 : magnitudeSquared r > 3 * size * size / 2 := by rw [hc]; exact h
    simp [forceLJ86Repulsive, h2]
  · intro h hr he
    have h2 : ¬ magnitudeSquared r > 3 * size * size / 2 := by rw [hc]; exact h
    have hs : 0 < magnitudeSquared r := magnitudeSquared_pos hr
    have hle : magnitudeSquared r ≤ 3 * size * size / 2 := not_lt.mp h2
    have hx : 2 ≤ 3 * size * size / magnitudeSquared r := by
      rw [le_div_iff₀ hs]
      linarith
    have hx3 : 0 ≤ (3 * size * size / magnitudeSquared r) ^ 3 := by positivity
    have hbr : 0 ≤ 0.5 * (3 * size * size / magnitudeSquared r) ^ 4
        - (3 * size * size / magnitudeSquared r) ^ 3 := by
      have e : 0.5 * (3 * size * size / magnitudeSquared r) ^ 4
          - (3 * size * size / magnitudeSquared r) ^ 3
          = (3 * size * size / magnitudeSquared r) ^ 3
            * (0.5 * (3 * size * size / magnitudeSquared r) - 1) := by ring
      rw [e]
      apply mul_nonneg hx3
      norm_num
      linarith
    refine ⟨0.5 * ws.eLJ * (0.5 * (3 * size * size / magnitudeSquared r) ^ 4
        - (3 * size * size / magnitudeSquared r) ^ 3) / magnitudeSquared r, ?_, ?_⟩
    · apply div_nonneg _ hs.le
      apply mul_nonneg _ hbr
      apply mul_nonneg _ he
      norm_num
    · simp only [forceLJ86Repulsive, h2, if_false]
      exact divScalar_mulScalar _ _ _

/-- C3 within the cutoff on concrete data: `r = (1,0,0)`, `size = 1`. -/
theorem forceLJ86Repulsive_cutoff_direction_witness :
    ¬ magnitudeSquared (⟨1, 0, 0⟩ : Vector3D ℚ) > 1.5 * (1 : ℚ) ^ 2
      ∧ (⟨1, 0, 0⟩ : Vector3D ℚ) ≠ 0 ∧ 0 ≤ (sampleSettings ℚ).eLJ
      ∧ ∃ k : ℚ, 0 ≤ k
          ∧ (forceLJ86Repulsive (sampleSettings ℚ) ⟨1, 0, 0⟩ 1).1 = smul k ⟨1, 0, 0⟩ :=
  have h1 : ¬ magnitudeSquared (⟨1, 0, 0⟩ : Vector3D ℚ) > 1.5 * (1 : ℚ) ^ 2 := by
    norm_num [magnitudeSquared]
  have h2 : (⟨1, 0, 0⟩ : Vector3D ℚ) ≠ 0 := fun h => one_ne_zero (congrArg Vector3D.x h)
  have h3 : 0 ≤ (sampleSettings ℚ).eLJ := by norm_num [sampleSettings]
  ⟨h1, h2, h3, (forceLJ86Repulsive_cutoff_direction (sampleSettings ℚ) ⟨1, 0, 0⟩ 1).2 h1 h2 h3⟩

theorem forceChargeCoulomb_magnitude (m : MathLib K) (hs : IsSqrt m.sqrt) (ws : WorldSettings K)
    (r : Vector3D K) (q : K) (hr : r ≠ 0) :
    magnitude m (forceChargeCoulomb m ws r q)
      = |ws.coulombStrength * q| / magnitudeSquared r := by
  have hpos : 0 < magnitudeSquared r := magnitudeSquared_pos hr
  have hne : magnitudeSquared r ≠ 0 := ne_of_gt hpos
  have hmu : m.sqrt (magnitudeSquared r) * m.sqrt (magnitudeSquared r) = magnitudeSquared r :=
    (hs _ hpos.le).2
  have hsq : magnitudeSquared (forceChargeCoulomb m ws r q)
      = (|ws.coulombStrength * q| / magnitudeSquared r)
        * (|ws.coulombStrength * q| / magnitudeSquared r) := by
    rw [forceChargeCoulomb, magnitudeSquared_divScalar, magnitudeSquared_smul, magnitude,
      div_mul_div_comm, abs_mul_abs_self]
    have e : m.sqrt (magnitudeSquared r) * magnitudeSquared r
        * (m.sqrt (magnitudeSquared r) * magnitudeSquared r)
        = magnitudeSquared r * magnitudeSquared r * magnitudeSquared r := by
      calc m.sqrt (magnitudeSquared r) * magnitudeSquared r
            * (m.sqrt (magnitudeSquared r) * magnitudeSquared r)
          = (m.sqrt (magnitudeSquared r) * m.sqrt (magnitudeSquared r))
            * magnitudeSquared r * magnitudeSquared r := by ring
        _ = magnitudeSquared r * magnitudeSquared r * magnitudeSquared r := by rw [hmu]
    rw [e]
    field_simp
    ring
  rw [magnitude, hsq]
  exact hs.mul_self (div_nonneg (abs_nonneg _) hpos.le)

/-- C8: for nonzero `r` (and an exact `sqrt`) the Coulomb force is
`(coulombStrength * q / |r|^3) * r`, its magnitude is
`|coulombStrength * q| / |r|^2`, scaling `r` by `l > 0` divides the magnitude
by `l^2`, and negating the charge negates the force. -/
theorem forceChargeCoulomb_inverse_square (m : MathLib K) (hs : IsSqrt m.sqrt)
    (ws : WorldSettings K) (r : Vector3D K) (q : K) (hr : r ≠ 0) :
    forceChargeCoulomb m ws r q = smul (ws.coulombStrength * q / magnitude m r ^ 3) r
      ∧ magnitude m (forceChargeCoulomb m ws r q)
          = |ws.coulombStrength * q| / magnitude m r ^ 2
      ∧ (∀ l : K, 0 < l →
          magnitude m (forceChargeCoulomb m ws (smul l r) q)
            = magnitude m (forceChargeCoulomb m ws r q) / l ^ 2)
      ∧ forceChargeCoulomb m ws r (-q) = -forceChargeCoulomb m ws r q := by
  have hpos : 0 < magnitudeSquared r := magnitudeSquared_pos hr
  have hmu : m.sqrt (magnitudeSquared r) * m.sqrt (magnitudeSquared r) = magnitudeSquared r :=
    (hs _ hpos.le).2
  have hmu2 : magnitude m r ^ 2 = magnitudeSquared r := by
    rw [magnitude, pow_two, hmu]
  refine ⟨?_, ?_, ?_, ?_⟩
  · have e : magnitude m r * magnitudeSquared r = magnitude m r ^ 3 := by
      rw [← hmu2]
      ring
    rw [forceChargeCoulomb, e]
    ext <;> simp only [divScalar, smul] <;> ring
  · rw [hmu2]
    exact forceChargeCoulomb_magnitude m hs ws r q hr
  · intro l hl
    have hlr : smul l r ≠ 0 := by
      intro h
      have h0 : magnitudeSquared (smul l r) = 0 := by
        rw [h]
        simp [magnitudeSquared]
      rw [magnitudeSquared_smul] at h0
      have : 0 < l * l * magnitudeSquared r := mul_pos (mul_pos hl hl) hpos
      exact absurd h0 (ne_of_gt this)
    rw [forceChargeCoulomb_magnitude m hs ws _ q hlr,
      forceChargeCoulomb_magnitude m hs ws r q hr, magnitudeSquared_smul]
    rw [div_div]
    congr 1
    ring
  · ext <;> simp only [forceChargeCoulomb, divScalar, smul, Vector3D.neg_x, Vector3D.neg_y,
      Vector3D.neg_z] <;> ring

theorem forceChargeCoulomb_inverse_square_witness :
    (⟨3, 4, 0⟩ : Vector3D ℝ) ≠ 0
      ∧ forceChargeCoulomb ⟨Real.sqrt, Real.exp⟩ (sampleSettings ℝ) ⟨3, 4, 0⟩ 2
          = smul ((sampleSettings ℝ).coulombStrength * 2
              / magnitude ⟨Real.sqrt, Real.exp⟩ (⟨3, 4, 0⟩ : Vector3D ℝ) ^ 3) ⟨3, 4, 0⟩
      ∧ magnitude ⟨Real.sqrt, Real.exp⟩
          (forceChargeCoulomb ⟨Real.sqrt, Real.exp⟩ (sampleSettings ℝ) ⟨3, 4, 0⟩ 2)
          = |(sampleSettings ℝ).coulombStrength * 2|
            / magnitude ⟨Real.sqrt, Real.exp⟩ (⟨3, 4, 0⟩ : Vector3D ℝ) ^ 2
      ∧ (∀ l : ℝ, 0 < l →
          magnitude ⟨Real.sqrt, Real.exp⟩
              (forceChargeCoulomb ⟨Real.sqrt, Real.exp⟩ (sampleSettings ℝ)
                (smul l ⟨3, 4, 0⟩) 2)
            = magnitude ⟨Real.sqrt, Real.exp⟩
                (forceChargeCoulomb ⟨Real.sqrt, Real.exp⟩ (sampleSettings ℝ) ⟨3, 4, 0⟩ 2)
              / l ^ 2)
      ∧ forceChargeCoulomb ⟨Real.sqrt, Real.exp⟩ (sampleSettings ℝ) ⟨3, 4, 0⟩ (-2)
          = -forceChargeCoulomb ⟨Real.sqrt, Real.exp⟩ (sampleSettings ℝ) ⟨3, 4, 0⟩ 2 :=
  have h0 : (⟨3, 4, 0⟩ : Vector3D ℝ) ≠ 0 := fun h => three_ne_zero (congrArg Vector3D.x h)
  ⟨h0, forceChargeCoulomb_inverse_square ⟨Real.sqrt, Real.exp⟩ IsSqrt.real
    (sampleSettings ℝ) ⟨3, 4, 0⟩ 2 h0⟩

end PairLaws

/-! ## Bonded-force accumulation -/

section Simulate

variable {K : Type} [LinearOrderedField K]

open Vector3D

theorem getD_set_eq {α : Type} (l : List α) (i j : Nat) (a d : α) :
    (l.set i a).getD j d = if i = j ∧ i < l.length then a else l.getD j d := by
  simp only [List.getD_eq_getElem?_getD, List.getElem?_set]
  by_cases h : i = j
  · subst h
    by_cases h2 : i < l.length
    · simp [h2]
    · simp [h2, List.getElem?_eq_none (not_lt.mp h2)]
  · simp [h]

theorem getD_set_addDr_r (c : List (Particle K)) (k j : Nat) (f : Vector3D K) :
    ((c.set k ((c.getD k default).addDr f)).getD j default).r = (c.getD j default).r := by
  rw [getD_set_eq]
  split_ifs with h
  · rw [← h.1]
    rfl
  · rfl

theorem getD_set_addDr_dr (c : List (Particle K)) (k j : Nat) (f : Vector3D K) :
    ((c.set k ((c.getD k default).addDr f)).getD j default).dr
      = if k = j ∧ k < c.length then (c.getD j default).dr + f else (c.getD j default).dr := by
  rw [getD_set_eq]
  split_ifs with h
  · rw [← h.1]
    rfl
  · rfl

theorem forceBond_config (m : MathLib K) (ws : WorldSettings K) (r : Vector3D K) :
    (forceBond m ws r).2.typeForceBond = ws.typeForceBond
      ∧ (forceBond m ws r).2.maxFENELengthSquared = ws.maxFENELengthSquared := by
  simp only [forceBond, forceBondFENE]
  split_ifs <;> simp

theorem forceBond_value_congr (m : MathLib K) (ws ws' : WorldSettings K) (r : Vector3D K)
    (h1 : ws'.typeForceBond = ws.typeForceBond)
    (h2 : ws'.maxFENELengthSquared = ws.maxFENELengthSquared) :
    (forceBond m ws' r).1 = (forceBond m ws r).1 := by
  unfold forceBond forceBondFENE forceBondExp
  simp only [h1, h2]
  split_ifs <;> rfl

theorem simulateStep_fold (m : MathLib K) (w0 : WorldSettings K) :
    ∀ (n s : Nat) (c : List (Particle K)) (w : WorldSettings K),
      w.typeForceBond = w0.typeForceBond →
      w.maxFENELengthSquared = w0.maxFENELengthSquared →
      ((List.range' s n).foldl (simulateStep m) (c, w)).1.length = c.length
      ∧ ((List.range' s n).foldl (simulateStep m) (c, w)).2.typeForceBond = w0.typeForceBond
      ∧ ((List.range' s n).foldl (simulateStep m) (c, w)).2.maxFENELengthSquared
          = w0.maxFENELengthSquared
      ∧ (∀ j, (((List.range' s n).foldl (simulateStep m) (c, w)).1.getD j default).r
          = (c.getD j default).r)
      ∧ (∀ j, (((List.range' s n).foldl (simulateStep m) (c, w)).1.getD j default).dr
          = if s ≤ j ∧ j < s + n ∧ j < c.length then
              (c.getD j default).dr
                + ((forceBond m w0 ((c.getD j default).r - (c.getD (j + 1) default).r)).1
                  + (forceBond m w0 ((c.getD j default).r - (c.getD (j - 1) default).r)).1)
            else (c.getD j default).dr) := by
  intro n
  induction n with
  | zero =>
    intro s c w h1 h2
    refine ⟨rfl, h1, h2, fun j => rfl, fun j => ?_⟩
    have : ¬ (s ≤ j ∧ j < s + 0 ∧ j < c.length) := by omega
    exact (if_neg this).symm
  | succ n ih =>
    intro s c w h1 h2
    rw [List.range'_succ, List.foldl_cons]
    have ha := forceBond_config m w ((c.getD s default).r - (c.getD (s + 1) default).r)
    have hb := forceBond_config m
      (forceBond m w ((c.getD s default).r - (c.getD (s + 1) default).r)).2
      ((c.getD s default).r - (c.getD (s - 1) default).r)
    have hva := forceBond_value_congr m w0 w
      ((c.getD s default).r - (c.getD (s + 1) default).r) h1 h2
    have hvb := forceBond_value_congr m w0
      (forceBond m w ((c.getD s default).r - (c.getD (s + 1) default).r)).2
      ((c.getD s default).r - (c.getD (s - 1) default).r)
      (ha.1.trans h1) (ha.2.trans h2)
    obtain ⟨il, it, im, ir, id⟩ := ih (s + 1) (simulateStep m (c, w) s).1
      (simulateStep m (c, w) s).2 (hb.1.trans (ha.1.trans h1)) (hb.2.trans (ha.2.trans h2))
    have hlen : (simulateStep m (c, w) s).1.length = c.length := by
      simp [simulateStep]
    have hr : ∀ j, ((simulateStep m (c, w) s).1.getD j default).r = (c.getD j default).r := by
      intro j
      simp only [simulateStep, getD_set_eq]
      split_ifs with h
      · rw [← h.1]
        rfl
      · rfl
    have hd : ∀ j, ((simulateStep m (c, w) s).1.getD j default).dr
        = if s = j ∧ s < c.length then
            (c.getD j default).dr
              + ((forceBond m w0 ((c.getD j default).r - (c.getD (j + 1) default).r)).1
                + (forceBond m w0 ((c.getD j default).r - (c.getD (j - 1) default).r)).1)
          else (c.getD j default).dr := by
      intro j
      simp only [simulateStep, getD_set_eq]
      split_ifs with h
      · rw [← h.1]
        simp only [Particle.addDr, hva, hvb]
      · rfl
    refine ⟨il.trans hlen, it, im, fun j => (ir j).trans (hr j), fun j => ?_⟩
    rw [id j, hlen, hr j, hr (j + 1), hr (j - 1), hd j]
    by_cases hj : s = j
    · subst hj
      by_cases hl : s < c.length
      · have e1 : ¬ (s + 1 ≤ s ∧ s < s + 1 + n ∧ s < c.length) := by omega
        have e2 : (s ≤ s ∧ s < s + (n + 1) ∧ s < c.length) := by omega
        simp [e1, e2, hl]
      · have e1 : ¬ (s + 1 ≤ s ∧ s < s + 1 + n ∧ s < c.length) := by omega
        have e2 : ¬ (s ≤ s ∧ s < s + (n + 1) ∧ s < c.length) := by omega
        simp [e1, e2, hl]
    · have e0 : ¬ (s = j ∧ s < c.length) := fun h => hj h.1
      by_cases hin : s + 1 ≤ j ∧ j < s + 1 + n ∧ j < c.length
      · have e2 : (s ≤ j ∧ j < s + (n + 1) ∧ j < c.length) := by omega
        simp [e0, e2, hin]
      · have e2 : ¬ (s ≤ j ∧ j < s + (n + 1) ∧ j < c.length) := by omega
        simp [e0, e2, hin]

theorem simulate_increments (m : MathLib K) (ws : WorldSettings K) (p : Polymer K) (t : K)
    (hwf : p.noOfMonomers = p.chain.length) (hN : 2 ≤ p.noOfMonomers) :
    (p.simulate m ws t).1.noOfMonomers = p.noOfMonomers
      ∧ (p.simulate m ws t).1.chain.length = p.chain.length
      ∧ (∀ i, ((p.simulate m ws t).1.chain.getD i default).r = (p.chain.getD i default).r)
      ∧ ((p.simulate m ws t).1.chain.getD 0 default).dr
          = (p.chain.getD 0 default).dr
            + (forceBond m ws ((p.chain.getD 0 default).r - (p.chain.getD 1 default).r)).1
      ∧ ((p.simulate m ws t).1.chain.getD (p.noOfMonomers - 1) default).dr
          = (p.chain.getD (p.noOfMonomers - 1) default).dr
            + (forceBond m ws ((p.chain.getD (p.noOfMonomers - 1) default).r
                - (p.chain.getD (p.noOfMonomers - 2) default).r)).1
      ∧ (∀ i, 1 ≤ i → i + 1 < p.noOfMonomers →
          ((p.simulate m ws t).1.chain.getD i default).dr
            = (p.chain.getD i default).dr
              + ((forceBond m ws ((p.chain.getD i default).r
                    - (p.chain.getD (i + 1) default).r)).1
                + (forceBond m ws ((p.chain.getD i default).r
                    - (p.chain.getD (i - 1) default).r)).1)) := by
  obtain ⟨N, c0⟩ := p
  simp only at hwf hN
  have hgt : N > 1 := by omega
  have hf0 := forceBond_config m ws ((c0.getD 0 default).r - (c0.getD 1 default).r)
  obtain ⟨ml, mt, mm, mr, md⟩ := simulateStep_fold m ws (N - 2) 1
    (c0.set 0 ((c0.getD 0 default).addDr
      (forceBond m ws ((c0.getD 0 default).r - (c0.getD 1 default).r)).1))
    (forceBond m ws ((c0.getD 0 default).r - (c0.getD 1 default).r)).2 hf0.1 hf0.2
  rw [List.length_set] at ml md
  have hfl := forceBond_value_congr m ws _
    ((c0.getD (N - 1) default).r - (c0.getD (N - 2) default).r) mt mm
  simp only [Polymer.simulate, if_pos hgt]
  refine ⟨trivial, ?_, fun i => ?_, ?_, ?_, fun i h1 h2 => ?_⟩
  · rw [List.length_set, ml]
  · rw [getD_set_addDr_r, mr, getD_set_addDr_r]
  · rw [getD_set_addDr_dr, ml, md, getD_set_addDr_dr]
    have h : ¬ (N - 1 = 0 ∧ N - 1 < c0.length) := by omega
    have h' : ¬ (1 ≤ 0 ∧ 0 < 1 + (N - 2) ∧ 0 < c0.length) := by omega
    have h'' : (0 = 0 ∧ 0 < c0.length) := ⟨rfl, by omega⟩
    rw [if_neg h, if_neg h', if_pos h'']
  · have h : (N - 1 = N - 1 ∧ N - 1 < c0.length) := ⟨rfl, by omega⟩
    have h' : ¬ (1 ≤ N - 1 ∧ N - 1 < 1 + (N - 2) ∧ N - 1 < c0.length) := by omega
    have h'' : ¬ (0 = N - 1 ∧ 0 < c0.length) := by omega
    rw [getD_set_addDr_dr, ml, if_pos h, md, if_neg h', getD_set_addDr_dr, if_neg h'']
    simp only [mr, getD_set_addDr_r]
    rw [hfl]
  · have h : ¬ (N - 1 = i ∧ N - 1 < c0.length) := by omega
    have h' : (1 ≤ i ∧ i < 1 + (N - 2) ∧ i < c0.length) := by omega
    have h'' : ¬ (0 = i ∧ 0 < c0.length) := by omega
    rw [getD_set_addDr_dr, ml, if_neg h, md, if_pos h', getD_set_addDr_dr, if_neg h'']
    simp only [getD_set_addDr_r]

/-- C4: for a chain of `N >= 2` beads and any bond law, `simulate` keeps the
bead count and every position, adds `forceBond(r0 - r1)` to bead 0's
accumulator, `forceBond(r[N-1] - r[N-2])` to bead `N-1`'s, and
`forceBond(r[i] - r[i+1]) + forceBond(r[i] - r[i-1])` to every interior bead's;
for the two-bead chain `(0,0,0)`, `(0,0,1)` under the harmonic law bead 0 gains
`(0,0,1)` and bead 1 gains `(0,0,-1)`. -/
theorem simulate_accumulates (m : MathLib K) (ws : WorldSettings K) (p : Polymer K) (t : K)
    (hwf : p.noOfMonomers = p.chain.length) (hN : 2 ≤ p.noOfMonomers) :
    ((p.simulate m ws t).1.noOfMonomers = p.noOfMonomers
      ∧ (p.simulate m ws t).1.chain.length = p.chain.length
      ∧ (∀ i, ((p.simulate m ws t).1.chain.getD i default).r = (p.chain.getD i default).r)
      ∧ ((p.simulate m ws t).1.chain.getD 0 default).dr
          = (p.chain.getD 0 default).dr
            + (forceBond m ws ((p.chain.getD 0 default).r - (p.chain.getD 1 default).r)).1
      ∧ ((p.simulate m ws t).1.chain.getD (p.noOfMonomers - 1) default).dr
          = (p.chain.getD (p.noOfMonomers - 1) default).dr
            + (forceBond m ws ((p.chain.getD (p.noOfMonomers - 1) default).r
                - (p.chain.getD (p.noOfMonomers - 2) default).r)).1
      ∧ (∀ i, 1 ≤ i → i + 1 < p.noOfMonomers →
          ((p.simulate m ws t).1.chain.getD i default).dr
            = (p.chain.getD i default).dr
              + ((forceBond m ws ((p.chain.getD i default).r
                    - (p.chain.getD (i + 1) default).r)).1
                + (forceBond m ws ((p.chain.getD i default).r
                    - (p.chain.getD (i - 1) default).r)).1)))
    ∧ (∀ (b0 b1 : Particle K),
        ws.typeForceBond = BondType.BOND_HOOKE →
        b0.r = ⟨0, 0, 0⟩ → b1.r = ⟨0, 0, 1⟩ →
        ((Polymer.simulate m ws ⟨2, [b0, b1]⟩ t).1.chain.getD 0 default).dr
            = b0.dr + ⟨0, 0, 1⟩
          ∧ ((Polymer.simulate m ws ⟨2, [b0, b1]⟩ t).1.chain.getD 1 default).dr
            = b1.dr + ⟨0, 0, -1⟩) := by
  constructor
  · exact simulate_increments m ws p t hwf hN
  · intro b0 b1 hk h0 h1
    constructor <;> ext <;>
      simp [Polymer.simulate, forceBond, forceBondHooke, hk, Particle.addDr, h0, h1]

/-- The two-bead scenario of C4 on concrete data: the general statement at
bead 0, and the gains `(0,0,1)` and `(0,0,-1)` of the harmonic scenario. -/
theorem simulate_accumulates_witness :
    ((Polymer.simulate ⟨fun _ => 0, fun _ => 1⟩ (sampleSettings ℚ)
        ⟨2, [beadAt ⟨0, 0, 0⟩, beadAt ⟨0, 0, 1⟩]⟩ 0).1.chain.getD 0 default).dr
      = (beadAt (⟨0, 0, 0⟩ : Vector3D ℚ)).dr
        + (forceBond ⟨fun _ => 0, fun _ => 1⟩ (sampleSettings ℚ)
            ((beadAt (⟨0, 0, 0⟩ : Vector3D ℚ)).r - (beadAt (⟨0, 0, 1⟩ : Vector3D ℚ)).r)).1
      ∧ ((Polymer.simulate ⟨fun _ => 0, fun _ => 1⟩ (sampleSettings ℚ)
          ⟨2, [beadAt ⟨0, 0, 0⟩, beadAt ⟨0, 0, 1⟩]⟩ 0).1.chain.getD 0 default).dr
        = (beadAt (⟨0, 0, 0⟩ : Vector3D ℚ)).dr + ⟨0, 0, 1⟩
      ∧ ((Polymer.simulate ⟨fun _ => 0, fun _ => 1⟩ (sampleSettings ℚ)
          ⟨2, [beadAt ⟨0, 0, 0⟩, beadAt ⟨0, 0, 1⟩]⟩ 0).1.chain.getD 1 default).dr
        = (beadAt (⟨0, 0, 1⟩ : Vector3D ℚ)).dr + ⟨0, 0, -1⟩ :=
  ⟨(simulate_accumulates ⟨fun _ => 0, fun _ => 1⟩ (sampleSettings ℚ)
      ⟨2, [beadAt ⟨0, 0, 0⟩, beadAt ⟨0, 0, 1⟩]⟩ 0 rfl (by decide)).1.2.2.2.1,
    (simulate_accumulates ⟨fun _ => 0, fun _ => 1⟩ (sampleSettings ℚ)
      ⟨2, [beadAt ⟨0, 0, 0⟩, beadAt ⟨0, 0, 1⟩]⟩ 0 rfl (by decide)).2
      (beadAt ⟨0, 0, 0⟩) (beadAt ⟨0, 0, 1⟩) rfl rfl rfl⟩

end Simulate

/-! ## Chain construction -/

section Construction

variable {K : Type} [LinearOrderedField K]

open Vector3D

theorem placeBead_line (m : MathLib K) (fuel : Nat) (ws : WorldSettings K) (N : Nat)
    (start orientation : Vector3D K) (chain : List (Particle K)) (i : Nat)
    (hic : ws.initialCondition = InitialCondition.IC_LINE) :
    placeBead m fuel ws N start orientation chain i
      = some (start + smul ((i : K) * ws.bondLength) orientation, ws) := by
  simp [placeBead, hic]

theorem buildLoop_line (m : MathLib K) (fuel : Nat) (ws : WorldSettings K) (self N : Nat)
    (sequence : List Char) (fixedStart : Bool) (start orientation : Vector3D K)
    (hic : ws.initialCondition = InitialCondition.IC_LINE) :
    ∀ (k : Nat) (chain : List (Particle K)),
      ∃ chain', buildLoop m fuel self N sequence fixedStart start orientation k chain ws
          = some (chain', ws)
        ∧ chain'.length = chain.length
        ∧ (∀ j, j < k → j < chain.length →
            (chain'.getD j default).r = start + smul ((j : K) * ws.bondLength) orientation)
        ∧ (∀ j, k ≤ j → chain'.getD j default = chain.getD j default) := by
  intro k
  induction k with
  | zero =>
    intro chain
    exact ⟨chain, rfl, rfl, fun j hj => absurd hj (Nat.not_lt_zero j), fun j _ => rfl⟩
  | succ k ih =>
    intro chain
    obtain ⟨chain', he, hl, hp, hk⟩ := ih (chain.set k
      (Particle.new (start + smul ((k : K) * ws.bondLength) orientation)
        ParticleType.AMINO_ACID (sequence.getD k (Char.ofNat 0))
        (if k + 1 < N then some ⟨self, k + 1⟩ else none) (decide (k = 0) && fixedStart)))
    refine ⟨chain', ?_, ?_, ?_, ?_⟩
    · simp only [buildLoop, placeBead_line m fuel ws N start orientation chain k hic]
      exact he
    · rw [hl, List.length_set]
    · intro j hj hjl
      rw [List.length_set] at hp
      rcases Nat.lt_succ_iff_lt_or_eq.mp hj with h | h
      · exact hp j h hjl
      · subst h
        rw [hk j (le_refl j), getD_set_eq, if_pos ⟨rfl, hjl⟩]
        rfl
    · intro j hj
      rw [hk j (by omega), getD_set_eq]
      have : ¬ (k = j ∧ k < chain.length) := by omega
      rw [if_neg this]

/-- C5: with the straight-line policy the constructor always succeeds, consumes
no random draw (the settings, sample stream included, come back unchanged), and
places bead `i` at `start + i * bondLength * orientation` for every `i < N`;
when `orientation` is a unit vector, `bondLength >= 0` and `sqrt` is exact,
every consecutive separation has magnitude exactly `bondLength`. -/
theorem line_construction (m : MathLib K) (fuel : Nat) (ws : WorldSettings K) (self N : Nat)
    (sequence : List Char) (random fixedStart : Bool) (start orientation : Vector3D K)
    (particles : List ParticleRef)
    (hic : ws.initialCondition = InitialCondition.IC_LINE) :
    ∃ p ps, Polymer.new m fuel ws self N sequence random fixedStart start orientation particles
        = some (p, ps, ws)
      ∧ p.noOfMonomers = N ∧ p.chain.length = N
      ∧ (∀ i, i < N →
          (p.chain.getD i default).r = start + smul ((i : K) * ws.bondLength) orientation)
      ∧ (IsSqrt m.sqrt → magnitude m orientation = 1 → 0 ≤ ws.bondLength →
          ∀ i, i + 1 < N →
            magnitude m ((p.chain.getD (i + 1) default).r - (p.chain.getD i default).r)
              = ws.bondLength) := by
  obtain ⟨chain', he, hl, hp, -⟩ := buildLoop_line m fuel ws self N sequence fixedStart
    start orientation hic N (List.replicate N default)
  rw [List.length_replicate] at hl hp
  refine ⟨⟨N, chain'⟩, (List.range N).foldl (fun ps i => ps ++ [⟨self, i⟩]) particles,
    ?_, rfl, hl, fun i hi => hp i hi hi, ?_⟩
  · simp only [Polymer.new, he]
  · intro hs hu hb i hi
    have hu2 : magnitudeSquared orientation = 1 := by
      have h := (hs _ (magnitudeSquared_nonneg orientation)).2
      unfold magnitude at hu
      rw [hu] at h
      simpa using h.symm
    have hsep : (chain'.getD (i + 1) default).r - (chain'.getD i default).r
        = smul ws.bondLength orientation := by
      rw [hp (i + 1) hi hi, hp i (by omega) (by omega)]
      ext <;> simp only [smul, Vector3D.sub_x, Vector3D.sub_y, Vector3D.sub_z, Vector3D.add_x,
        Vector3D.add_y, Vector3D.add_z] <;> push_cast <;> ring
    show magnitude m ((chain'.getD (i + 1) default).r - (chain'.getD i default).r) = _
    rw [hsep, magnitude, magnitudeSquared_smul, hu2, mul_one]
    exact hs.mul_self hb

theorem line_construction_witness :
    (sampleSettings ℝ).initialCondition = InitialCondition.IC_LINE
      ∧ ∃ p ps, Polymer.new ⟨Real.sqrt, Real.exp⟩ 0 (sampleSettings ℝ) 0 3
          [Char.ofNat 65, Char.ofNat 66, Char.ofNat 67] false true ⟨0, 0, 0⟩ ⟨1, 0, 0⟩ []
          = some (p, ps, sampleSettings ℝ)
        ∧ p.noOfMonomers = 3 ∧ p.chain.length = 3
        ∧ (∀ i, i < 3 → (p.chain.getD i default).r
            = ⟨0, 0, 0⟩ + smul ((i : ℝ) * (sampleSettings ℝ).bondLength) ⟨1, 0, 0⟩)
        ∧ (IsSqrt (MathLib.mk Real.sqrt Real.exp).sqrt
            → magnitude ⟨Real.sqrt, Real.exp⟩ (⟨1, 0, 0⟩ : Vector3D ℝ) = 1
            → 0 ≤ (sampleSettings ℝ).bondLength →
            ∀ i, i + 1 < 3 →
              magnitude ⟨Real.sqrt, Real.exp⟩
                ((p.chain.getD (i + 1) default).r - (p.chain.getD i default).r)
                = (sampleSettings ℝ).bondLength) :=
  ⟨rfl, line_construction ⟨Real.sqrt, Real.exp⟩ 0 (sampleSettings ℝ) 0 3
    [Char.ofNat 65, Char.ofNat 66, Char.ofNat 67] false true ⟨0, 0, 0⟩ ⟨1, 0, 0⟩ [] rfl⟩

end Construction

/-! ## Observables -/

section Observables

variable {K : Type} [LinearOrderedField K]

open Vector3D

theorem foldl_range_congr {β : Type} (f g : β → Nat → β) :
    ∀ (n : Nat), (∀ acc i, i < n → f acc i = g acc i) →
      ∀ b, (List.range n).foldl f b = (List.range n).foldl g b := by
  intro n
  induction n with
  | zero => intro _ b; rfl
  | succ n ih =>
    intro h b
    rw [List.range_succ, List.foldl_append, List.foldl_append,
      ih (fun acc i hi => h acc i (Nat.lt_succ_of_lt hi)) b]
    simp only [List.foldl_cons, List.foldl_nil]
    exact h _ n (Nat.lt_succ_self n)

theorem translate_getD_r (p : Polymer K) (t : Vector3D K) (i : Nat) (hi : i < p.chain.length) :
    ((p.translate t).chain.getD i default).r = (p.chain.getD i default).r + t := by
  simp [Polymer.translate, List.getD_eq_getElem?_getD, List.getElem?_map,
    List.getElem?_eq_getElem hi]

theorem translate_sum (p : Polymer K) (t : Vector3D K) :
    ∀ n, n ≤ p.chain.length →
      (List.range n).foldl (fun rCOM i => rCOM + ((p.translate t).chain.getD i default).r) 0
        = (List.range n).foldl (fun rCOM i => rCOM + (p.chain.getD i default).r) 0
          + smul (n : K) t := by
  intro n
  induction n with
  | zero =>
    intro _
    ext <;> simp [smul]
  | succ n ih =>
    intro hn
    rw [List.range_succ, List.foldl_append, List.foldl_append, ih (Nat.le_of_succ_le hn)]
    simp only [List.foldl_cons, List.foldl_nil]
    rw [translate_getD_r p t n hn]
    ext <;> simp only [smul, Vector3D.add_x, Vector3D.add_y, Vector3D.add_z] <;> push_cast <;> ring

theorem translate_centreOfMass (p : Polymer K) (t : Vector3D K)
    (hwf : p.noOfMonomers = p.chain.length) (hN : 1 ≤ p.noOfMonomers) :
    (p.translate t).centreOfMass = p.centreOfMass + t := by
  have hne : (p.noOfMonomers : K) ≠ 0 := by
    have : (0 : K) < (p.noOfMonomers : K) := by exact_mod_cast hN
    exact ne_of_gt this
  have hs := translate_sum p t p.noOfMonomers (le_of_eq hwf)
  unfold Polymer.centreOfMass
  have e : (p.translate t).noOfMonomers = p.noOfMonomers := rfl
  rw [e, hs]
  ext <;> simp only [divScalar, smul, Vector3D.add_x, Vector3D.add_y, Vector3D.add_z] <;>
    field_simp <;> ring

/-- C9: for a chain of `N >= 1` beads, adding a vector `t` to every bead
position leaves `radiusOfGyrationSquared` unchanged. -/
theorem radiusOfGyrationSquared_translate (p : Polymer K) (t : Vector3D K)
    (hwf : p.noOfMonomers = p.chain.length) (hN : 1 ≤ p.noOfMonomers) :
    (p.translate t).radiusOfGyrationSquared = p.radiusOfGyrationSquared := by
  have hc := translate_centreOfMass p t hwf hN
  simp only [Polymer.radiusOfGyrationSquared]
  have e : (p.translate t).noOfMonomers = p.noOfMonomers := rfl
  rw [e, hc]
  congr 1
  apply foldl_range_congr
  intro acc i hi
  rw [translate_getD_r p t i (by omega)]
  congr 1
  have hd : (p.chain.getD i default).r + t - (p.centreOfMass + t)
      = (p.chain.getD i default).r - p.centreOfMass := by
    ext <;> simp only [Vector3D.add_x, Vector3D.add_y, Vector3D.add_z, Vector3D.sub_x,
      Vector3D.sub_y, Vector3D.sub_z] <;> ring
  rw [hd]

theorem radiusOfGyrationSquared_translate_witness :
    (Polymer.translate (⟨2, [beadAt ⟨0, 0, 0⟩, beadAt ⟨0, 0, 2⟩]⟩ : Polymer ℚ)
        ⟨5, -1, 7⟩).radiusOfGyrationSquared
      = (⟨2, [beadAt ⟨0, 0, 0⟩, beadAt ⟨0, 0, 2⟩]⟩ : Polymer ℚ).radiusOfGyrationSquared :=
  radiusOfGyrationSquared_translate ⟨2, [beadAt ⟨0, 0, 0⟩, beadAt ⟨0, 0, 2⟩]⟩ ⟨5, -1, 7⟩
    rfl (by decide)

/-- C10: on a one-bead chain `endToEndVector` is the zero vector,
`averageBondLengthSquared` is 0, and `simulate` returns the chain (position
and displacement accumulator included) and the settings (all diagnostic
counters included) unchanged. -/
theorem single_bead_chain (m : MathLib K) (ws : WorldSettings K) (p : Polymer K) (t : K)
    (h1 : p.noOfMonomers = 1) :
    p.endToEndVector = 0 ∧ p.averageBondLengthSquared = 0
      ∧ p.simulate m ws t = (p, ws) := by
  refine ⟨?_, ?_, ?_⟩
  · simp [Polymer.endToEndVector, h1]
  · simp [Polymer.averageBondLengthSquared, h1]
  · simp [Polymer.simulate, h1]

theorem single_bead_chain_witness :
    (⟨1, [beadAt ⟨1, 2, 3⟩]⟩ : Polymer ℚ).noOfMonomers = 1
      ∧ (⟨1, [beadAt ⟨1, 2, 3⟩]⟩ : Polymer ℚ).endToEndVector = 0
      ∧ (⟨1, [beadAt ⟨1, 2, 3⟩]⟩ : Polymer ℚ).averageBondLengthSquared = 0
      ∧ (⟨1, [beadAt ⟨1, 2, 3⟩]⟩ : Polymer ℚ).simulate ⟨fun _ => 0, fun _ => 1⟩
          { sampleSettings ℚ with typeForceBond := BondType.BOND_FENE } 0
        = (⟨1, [beadAt ⟨1, 2, 3⟩]⟩,
            { sampleSettings ℚ with typeForceBond := BondType.BOND_FENE }) :=
  ⟨rfl, single_bead_chain ⟨fun _ => 0, fun _ => 1⟩
    { sampleSettings ℚ with typeForceBond := BondType.BOND_FENE }
    ⟨1, [beadAt ⟨1, 2, 3⟩]⟩ 0 rfl⟩

end Observables

/-! ## Self-avoiding-walk construction -/

section SelfAvoidingWalk

variable {K : Type} [LinearOrderedField K]

open Vector3D

theorem Vector3D.magnitudeSquared_sub_comm (a b : Vector3D K) :
    magnitudeSquared (a - b) = magnitudeSquared (b - a) := by
  simp only [magnitudeSquared, Vector3D.sub_x, Vector3D.sub_y, Vector3D.sub_z]
  ring

theorem noiseTerm_spec (ws : WorldSettings K) :
    (noiseTerm ws 1).1 = stepAt ws.normalDistribution.draws ws.normalDistribution.next
      ∧ (noiseTerm ws 1).2.bondLength = ws.bondLength
      ∧ (noiseTerm ws 1).2.initialCondition = ws.initialCondition
      ∧ (noiseTerm ws 1).2.normalDistribution.draws = ws.normalDistribution.draws
      ∧ (noiseTerm ws 1).2.normalDistribution.next = ws.normalDistribution.next + 3 := by
  refine ⟨?_, rfl, rfl, rfl, rfl⟩
  ext <;> simp [noiseTerm, generateUnitNormal, stepAt]

theorem NoZeroStep.noiseTerm {ws : WorldSettings K} (h : NoZeroStep ws) :
    NoZeroStep (noiseTerm ws 1).2 := by
  intro j
  have e := noiseTerm_spec ws
  rw [e.2.2.2.1, e.2.2.2.2]
  have := h (j + 1)
  have e3 : ws.normalDistribution.next + 3 + 3 * j = ws.normalDistribution.next + 3 * (j + 1) := by
    ring
  rw [e3]
  exact this

theorem sawValid_foldl (ws : WorldSettings K) (chain : List (Particle K))
    (position : Vector3D K) (i : Nat) :
    ∀ (l : List Nat) (v : Bool),
      l.foldl (fun valid j =>
          if valid && distanceCheck ws ((chain.getD (i + j) default).r - position) then false
          else valid) v = true →
      v = true ∧ ∀ j, j ∈ l →
        distanceCheck ws ((chain.getD (i + j) default).r - position) = false := by
  intro l
  induction l with
  | nil =>
    intro v h
    exact ⟨h, fun j hj => absurd hj (List.not_mem_nil j)⟩
  | cons a l ih =>
    intro v h
    rw [List.foldl_cons] at h
    obtain ⟨hv, hl⟩ := ih _ h
    by_cases hc : (v && distanceCheck ws ((chain.getD (i + a) default).r - position)) = true
    · rw [if_pos hc] at hv
      exact absurd hv (by decide)
    · rw [if_neg hc] at hv
      refine ⟨hv, fun j hj => ?_⟩
      rcases List.mem_cons.mp hj with h1 | h1
      · subst h1
        rw [hv] at hc
        simpa using hc
      · exact hl j h1

theorem sawValid_spec (ws : WorldSettings K) (chain : List (Particle K))
    (position : Vector3D K) (i N : Nat) (h : sawValid ws chain position i N = true) :
    ∀ j, i + 2 ≤ j → j < N →
      magnitudeSquared ((chain.getD j default).r - position) > ws.bondLength * ws.bondLength := by
  intro j h1 h2
  have hmem : j - i ∈ List.range' 2 (N - i - 2) := by
    rw [List.mem_range'_1]
    omega
  have hd := (sawValid_foldl ws chain position i _ true h).2 (j - i) hmem
  have e : i + (j - i) = j := by omega
  rw [e] at hd
  by_contra hcon
  simp only [distanceCheck, if_neg hcon] at hd
  exact absurd hd (by decide)

theorem unit_step_magnitudeSquared (m : MathLib K) (hs : IsSqrt m.sqrt) (b : K)
    (step : Vector3D K) (hstep : step ≠ 0) :
    magnitudeSquared (divScalar (smul b step) (magnitude m step)) = b * b := by
  have hpos : 0 < magnitudeSquared step := magnitudeSquared_pos hstep
  have hmu := (hs _ hpos.le).2
  rw [magnitudeSquared_divScalar, magnitudeSquared_smul, magnitude, hmu]
  field_simp

theorem sawLoop_spec (m : MathLib K) (chain : List (Particle K)) (i N : Nat) :
    ∀ (fuel : Nat) (ws : WorldSettings K) (pos : Vector3D K) (ws' : WorldSettings K),
      sawLoop m chain i N fuel ws = some (pos, ws') → NoZeroStep ws →
      NoZeroStep ws' ∧ ws'.bondLength = ws.bondLength
        ∧ ws'.initialCondition = ws.initialCondition
        ∧ sawValid ws' chain pos i N = true
        ∧ ∃ step : Vector3D K, step ≠ 0
            ∧ pos = (chain.getD (i + 1) default).r
                + divScalar (smul ws.bondLength step) (magnitude m step) := by
  intro fuel
  induction fuel with
  | zero =>
    intro ws pos ws' h _
    simp [sawLoop] at h
  | succ fuel ih =>
    intro ws pos ws' h hz
    have e := noiseTerm_spec ws
    simp only [sawLoop] at h
    split_ifs at h with hv
    · simp only [Option.some.injEq, Prod.mk.injEq] at h
      obtain ⟨hp, hw⟩ := h
      subst hw
      refine ⟨hz.noiseTerm, e.2.1, e.2.2.1, ?_, (noiseTerm ws 1).1, ?_, ?_⟩
      · rw [← hp]
        exact hv
      · rw [e.1]
        have := hz 0
        simpa using this
      · rw [← hp, e.2.1]
    · obtain ⟨h1, h2, h3, h4, step, h5, h6⟩ := ih _ pos ws' h hz.noiseTerm
      refine ⟨h1, h2.trans e.2.1, h3.trans e.2.2.1, h4, step, h5, ?_⟩
      rw [h6, e.2.1]

theorem placeBead_saw (m : MathLib K) (fuel : Nat) (ws : WorldSettings K) (N : Nat)
    (start orientation : Vector3D K) (chain : List (Particle K)) (k : Nat)
    (pw : Vector3D K × WorldSettings K)
    (h : placeBead m fuel ws N start orientation chain k = some pw)
    (hic : ws.initialCondition = InitialCondition.IC_SAW) (hz : NoZeroStep ws) :
    pw.2.initialCondition = InitialCondition.IC_SAW ∧ pw.2.bondLength = ws.bondLength
      ∧ NoZeroStep pw.2
      ∧ (k + 1 = N → pw.1 = start)
      ∧ (k + 1 ≠ N → sawValid pw.2 chain pw.1 k N = true
          ∧ ∃ step : Vector3D K, step ≠ 0
              ∧ pw.1 = (chain.getD (k + 1) default).r
                  + divScalar (smul ws.bondLength step) (magnitude m step)) := by
  have hne : ¬ ws.initialCondition = InitialCondition.IC_LINE := by
    rw [hic]
    decide
  simp only [placeBead, if_neg hne, if_pos hic] at h
  by_cases hk : k + 1 = N
  · rw [if_pos hk] at h
    simp only [Option.some.injEq] at h
    subst h
    exact ⟨hic, rfl, hz, fun _ => rfl, fun hcon => absurd hk hcon⟩
  · rw [if_neg hk] at h
    cases hsl : sawLoop m chain k N fuel ws with
    | none =>
      rw [hsl] at h
      simp at h
    | some qw =>
      rw [hsl] at h
      obtain ⟨h1, h2, h3, h4, h5⟩ := sawLoop_spec m chain k N fuel ws qw.1 qw.2 hsl hz
      have hrw : ¬ qw.2.initialCondition = InitialCondition.IC_RW := by
        rw [h3, hic]
        decide
      simp only [if_neg hrw, Option.some.injEq] at h
      subst h
      exact ⟨h3.trans hic, h2, h1, fun hcon => absurd hcon hk, fun _ => ⟨h4, h5⟩⟩

theorem buildLoop_saw (m : MathLib K) (hs : IsSqrt m.sqrt) (fuel self N : Nat)
    (sequence : List Char) (fixedStart : Bool) (start orientation : Vector3D K) (b : K) :
    ∀ (k : Nat) (chain : List (Particle K)) (ws : WorldSettings K)
      (chain' : List (Particle K)) (ws' : WorldSettings K),
      buildLoop m fuel self N sequence fixedStart start orientation k chain ws
        = some (chain', ws') →
      k ≤ N → chain.length = N → ws.initialCondition = InitialCondition.IC_SAW →
      ws.bondLength = b → NoZeroStep ws →
      (k < N → (chain.getD (N - 1) default).r = start) →
      (∀ i, k ≤ i → i + 1 < N →
        magnitudeSquared ((chain.getD i default).r - (chain.getD (i + 1) default).r) = b * b) →
      (∀ i j, k ≤ i → i + 2 ≤ j → j < N →
        magnitudeSquared ((chain.getD j default).r - (chain.getD i default).r) > b * b) →
      chain'.length = N
        ∧ (0 < N → (chain'.getD (N - 1) default).r = start)
        ∧ (∀ i, i + 1 < N →
            magnitudeSquared ((chain'.getD i default).r - (chain'.getD (i + 1) default).r)
              = b * b)
        ∧ (∀ i j, i + 2 ≤ j → j < N →
            magnitudeSquared ((chain'.getD j default).r - (chain'.getD i default).r)
              > b * b) := by
  intro k
  induction k with
  | zero =>
    intro chain ws chain' ws' h _ hl _ _ _ h1 h2 h3
    simp only [buildLoop, Option.some.injEq, Prod.mk.injEq] at h
    obtain ⟨hc, -⟩ := h
    subst hc
    exact ⟨hl, h1, fun i hi => h2 i (Nat.zero_le i) hi,
      fun i j hij hj => h3 i j (Nat.zero_le i) hij hj⟩
  | succ k ih =>
    intro chain ws chain' ws' h hk hl hic hb hz h1 h2 h3
    simp only [buildLoop] at h
    cases hpb : placeBead m fuel ws N start orientation chain k with
    | none =>
      rw [hpb] at h
      simp at h
    | some pw =>
      rw [hpb] at h
      simp only at h
      obtain ⟨p1, p2, p3, p4, p5⟩ := placeBead_saw m fuel ws N start orientation chain k pw
        hpb hic hz
      have hkl : k < chain.length := by omega
      have hr : ∀ j, ((chain.set k (Particle.new pw.1 ParticleType.AMINO_ACID
            (sequence.getD k (Char.ofNat 0))
            (if k + 1 < N then some ⟨self, k + 1⟩ else none)
            (decide (k = 0) && fixedStart))).getD j default).r
          = if k = j then pw.1 else (chain.getD j default).r := by
        intro j
        rw [getD_set_eq]
        by_cases hj : k = j
        · rw [if_pos ⟨hj, hkl⟩, if_pos hj]
          rfl
        · rw [if_neg (fun hh => hj hh.1), if_neg hj]
      refine ih _ pw.2 chain' ws' h (by omega) (by rw [List.length_set]; exact hl) p1
        (p2.trans hb) p3 ?_ ?_ ?_
      · intro _
        rw [hr]
        by_cases hj : k = N - 1
        · rw [if_pos hj]
          exact p4 (by omega)
        · rw [if_neg hj]
          exact h1 (by omega)
      · intro i hki hi
        rw [hr, hr]
        have hne : ¬ k = i + 1 := by omega
        rw [if_neg hne]
        by_cases hj : k = i
        · subst hj
          rw [if_pos rfl]
          obtain ⟨-, step, hstep, hpos⟩ := p5 (by omega)
          have e : pw.1 - (chain.getD (k + 1) default).r
              = divScalar (smul ws.bondLength step) (magnitude m step) := by
            rw [hpos]
            ext <;> simp only [Vector3D.sub_x, Vector3D.sub_y, Vector3D.sub_z, Vector3D.add_x,
              Vector3D.add_y, Vector3D.add_z] <;> ring
          rw [e, unit_step_magnitudeSquared m hs _ step hstep, hb]
        · rw [if_neg hj]
          exact h2 i (by omega) hi
      · intro i j hki hij hj
        rw [hr, hr]
        have hne : ¬ k = j := by omega
        rw [if_neg hne]
        by_cases hi : k = i
        · subst hi
          rw [if_pos rfl]
          obtain ⟨hv, -⟩ := p5 (by omega)
          have := sawValid_spec pw.2 chain pw.1 k N hv j hij hj
          rw [p2, hb] at this
          exact this
        · rw [if_neg hi]
          exact h3 i j (by omega) hij hj

/-- C6: whenever self-avoiding-walk construction finishes (for `bondLength > 0`,
an exact `sqrt` and a sample stream without an all-zero step), bead `N-1` sits
at the start position, every two beads whose indices differ by 2 or more are
strictly farther apart than `bondLength`, and every two consecutive beads are
exactly `bondLength` apart. -/
theorem saw_construction (m : MathLib K) (hs : IsSqrt m.sqrt) (fuel : Nat)
    (ws : WorldSettings K) (self N : Nat) (sequence : List Char) (random fixedStart : Bool)
    (start orientation : Vector3D K) (particles : List ParticleRef)
    (p : Polymer K) (ps : List ParticleRef) (ws' : WorldSettings K)
    (hN : 1 ≤ N) (hic : ws.initialCondition = InitialCondition.IC_SAW)
    (hb : 0 < ws.bondLength) (hz : NoZeroStep ws)
    (hfin : Polymer.new m fuel ws self N sequence random fixedStart start orientation particles
      = some (p, ps, ws')) :
    p.noOfMonomers = N ∧ p.chain.length = N
      ∧ (p.chain.getD (N - 1) default).r = start
      ∧ (∀ i j, i + 2 ≤ j → j < N →
          magnitude m ((p.chain.getD j default).r - (p.chain.getD i default).r)
            > ws.bondLength)
      ∧ (∀ i, i + 1 < N →
          magnitude m ((p.chain.getD (i + 1) default).r - (p.chain.getD i default).r)
            = ws.bondLength) := by
  simp only [Polymer.new] at hfin
  cases hbl : buildLoop m fuel self N sequence fixedStart start orientation N
      (List.replicate N default) ws with
  | none =>
    rw [hbl] at hfin
    simp at hfin
  | some cw =>
    rw [hbl] at hfin
    simp only [Option.some.injEq, Prod.mk.injEq] at hfin
    obtain ⟨hp, -, -⟩ := hfin
    subst hp
    obtain ⟨g1, g2, g3, g4⟩ := buildLoop_saw m hs fuel self N sequence fixedStart start
      orientation ws.bondLength N (List.replicate N default) ws cw.1 cw.2 hbl (le_refl N)
      (List.length_replicate N default) hic rfl hz (fun h => absurd h (lt_irrefl N))
      (fun i hi hi2 => by omega) (fun i j hi hij hj => by omega)
    refine ⟨rfl, g1, g2 (by omega), fun i j hij hj => ?_, fun i hi => ?_⟩
    · have h := hs.lt (mul_self_nonneg ws.bondLength) (g4 i j hij hj)
      rw [hs.mul_self hb.le] at h
      exact h
    · show magnitude m _ = _
      rw [magnitude, magnitudeSquared_sub_comm, g3 i hi]
      exact hs.mul_self hb.le

theorem saw_sample_finishes :
    ∃ x, Polymer.new ⟨Real.sqrt, Real.exp⟩ 1 (sawSettings ℝ 1 (xAxisDraws ℝ)) 0 3
      [Char.ofNat 65, Char.ofNat 66, Char.ofNat 67] false true ⟨0, 0, 0⟩ ⟨1, 0, 0⟩ [] = some x := by
  have e1 : (1 : ℝ) < (-1 + -1) * (-1 + -1) := by norm_num
  simp [Polymer.new, buildLoop, placeBead, sawLoop, sawValid, noiseTerm, generateUnitNormal,
    sawSettings, sampleSettings, xAxisDraws, distanceCheck, magnitude, magnitudeSquared,
    divScalar, smul, Particle.new, getD_set_eq, List.range', e1]

theorem xAxisDraws_noZeroStep : NoZeroStep (sawSettings ℝ 1 (xAxisDraws ℝ)) := by
  intro j h
  have hx := congrArg Vector3D.x h
  simp [stepAt, sawSettings, xAxisDraws] at hx

theorem saw_construction_witness :
    1 ≤ 3 ∧ (sawSettings ℝ 1 (xAxisDraws ℝ)).initialCondition = InitialCondition.IC_SAW
      ∧ 0 < (sawSettings ℝ 1 (xAxisDraws ℝ)).bondLength
      ∧ NoZeroStep (sawSettings ℝ 1 (xAxisDraws ℝ))
      ∧ ∃ p ps ws', Polymer.new ⟨Real.sqrt, Real.exp⟩ 1 (sawSettings ℝ 1 (xAxisDraws ℝ)) 0 3
          [Char.ofNat 65, Char.ofNat 66, Char.ofNat 67] false true ⟨0, 0, 0⟩ ⟨1, 0, 0⟩ []
          = some (p, ps, ws')
        ∧ p.noOfMonomers = 3 ∧ p.chain.length = 3
        ∧ (p.chain.getD (3 - 1) default).r = ⟨0, 0, 0⟩
        ∧ (∀ i j, i + 2 ≤ j → j < 3 →
            magnitude ⟨Real.sqrt, Real.exp⟩
                ((p.chain.getD j default).r - (p.chain.getD i default).r)
              > (sawSettings ℝ 1 (xAxisDraws ℝ)).bondLength)
        ∧ (∀ i, i + 1 < 3 →
            magnitude ⟨Real.sqrt, Real.exp⟩
                ((p.chain.getD (i + 1) default).r - (p.chain.getD i default).r)
              = (sawSettings ℝ 1 (xAxisDraws ℝ)).bondLength) :=
  have hb : 0 < (sawSettings ℝ 1 (xAxisDraws ℝ)).bondLength := by
    simp [sawSettings]
  ⟨by decide, rfl, hb, xAxisDraws_noZeroStep,
    saw_sample_finishes.elim fun x hx =>
      ⟨x.1, x.2.1, x.2.2, hx,
        saw_construction ⟨Real.sqrt, Real.exp⟩ IsSqrt.real 1 (sawSettings ℝ 1 (xAxisDraws ℝ)) 0 3
          [Char.ofNat 65, Char.ofNat 66, Char.ofNat 67] false true ⟨0, 0, 0⟩ ⟨1, 0, 0⟩ []
          x.1 x.2.1 x.2.2 (by decide) rfl hb xAxisDraws_noZeroStep hx⟩⟩

theorem sawLoop_zero_bondLength (m : MathLib K) (chain : List (Particle K))
    (h12 : (chain.getD 1 default).r = (chain.getD 2 default).r) :
    ∀ (fuel : Nat) (ws : WorldSettings K), ws.bondLength = 0 →
      sawLoop m chain 0 3 fuel ws = none := by
  intro fuel
  induction fuel with
  | zero => intro ws _; rfl
  | succ fuel ih =>
    intro ws hb
    have hb2 : (noiseTerm ws 1).2.bondLength = 0 := hb
    have hpos : (chain.getD (0 + 1) default).r
        + divScalar (smul (noiseTerm ws 1).2.bondLength (noiseTerm ws 1).1)
            (magnitude m (noiseTerm ws 1).1) = (chain.getD 2 default).r := by
      rw [hb2, ← h12]
      ext <;> simp [divScalar, smul]
    have hv : sawValid (noiseTerm ws 1).2 chain (chain.getD 2 default).r 0 3 = false := by
      simp [sawValid, List.range', distanceCheck, magnitudeSquared, hb2]
    simp only [sawLoop, hpos, hv]
    exact ih _ hb2

theorem sawLoop_zero_pos (m : MathLib K) (chain : List (Particle K)) (i N : Nat) :
    ∀ (fuel : Nat) (ws : WorldSettings K) (qw : Vector3D K × WorldSettings K),
      sawLoop m chain i N fuel ws = some qw → ws.bondLength = 0 →
      qw.1 = (chain.getD (i + 1) default).r ∧ qw.2.bondLength = 0
        ∧ qw.2.initialCondition = ws.initialCondition := by
  intro fuel
  induction fuel with
  | zero =>
    intro ws qw h _
    simp [sawLoop] at h
  | succ fuel ih =>
    intro ws qw h hb
    have hb2 : (noiseTerm ws 1).2.bondLength = 0 := hb
    simp only [sawLoop] at h
    split_ifs at h with hv
    · simp only [Option.some.injEq] at h
      subst h
      refine ⟨?_, hb2, rfl⟩
      show (chain.getD (i + 1) default).r
          + divScalar (smul (noiseTerm ws 1).2.bondLength (noiseTerm ws 1).1)
            (magnitude m (noiseTerm ws 1).1) = _
      rw [hb2]
      ext <;> simp [divScalar, smul]
    · obtain ⟨h1, h2, h3⟩ := ih _ qw h hb2
      exact ⟨h1, h2, h3⟩

theorem buildLoop_zero_bondLength (m : MathLib K) (fuel self : Nat) (sequence : List Char)
    (fixedStart : Bool) (start orientation : Vector3D K) (chain : List (Particle K))
    (ws : WorldSettings K) (hl : chain.length = 3)
    (hic : ws.initialCondition = InitialCondition.IC_SAW) (hb : ws.bondLength = 0) :
    buildLoop m fuel self 3 sequence fixedStart start orientation 2 chain ws = none := by
  have hne : ¬ ws.initialCondition = InitialCondition.IC_LINE := by
    rw [hic]
    decide
  have h13 : ¬ (1 + 1 = 3) := by decide
  simp only [buildLoop, placeBead, if_neg hne, if_neg h13, if_pos hic]
  cases hsl : sawLoop m chain 1 3 fuel ws with
  | none => rfl
  | some qw =>
    obtain ⟨q1, q2, q3⟩ := sawLoop_zero_pos m chain 1 3 fuel ws qw hsl hb
    have hrw : ¬ qw.2.initialCondition = InitialCondition.IC_RW := by
      rw [q3, hic]
      decide
    have hne2 : ¬ qw.2.initialCondition = InitialCondition.IC_LINE := by
      rw [q3, hic]
      decide
    have h03 : ¬ (0 + 1 = 3) := by decide
    simp only [if_neg hrw, if_neg hne2, if_neg h03, if_pos (q3.trans hic)]
    have h1l : (1 = 1 ∧ 1 < chain.length) := ⟨rfl, by omega⟩
    have h2l : ¬ (1 = 2 ∧ 1 < chain.length) := by omega
    rw [sawLoop_zero_bondLength m _ _ fuel qw.2 q2]
    rw [getD_set_eq, getD_set_eq, if_pos h1l, if_neg h2l]
    exact q1

/-- C7, evaluated on the code: with the self-avoiding-walk policy, three beads
and `bondLength = 0`, the retry loop for bead 0 rejects every draw, so the
constructor does not finish within any number of iterations, whatever the
sample stream, `sqrt`, start position and fuel are: the loop has no iteration
cap of its own. -/
theorem saw_retry_loop_unbounded (m : MathLib K) (fuel : Nat) (nd : NormalDistribution K)
    (self : Nat) (sequence : List Char) (random fixedStart : Bool)
    (start orientation : Vector3D K) (particles : List ParticleRef) :
    Polymer.new m fuel (sawSettings K 0 nd) self 3 sequence random fixedStart start orientation
      particles = none := by
  have hic : (sawSettings K 0 nd).initialCondition = InitialCondition.IC_SAW := rfl
  have hne : ¬ (sawSettings K 0 nd).initialCondition = InitialCondition.IC_LINE := by
    rw [hic]
    decide
  have hb := buildLoop_zero_bondLength m fuel self sequence fixedStart start orientation
    ((List.replicate 3 (default : Particle K)).set 2
      (Particle.new start ParticleType.AMINO_ACID (sequence.getD 2 (Char.ofNat 0))
        (if 2 + 1 < 3 then some ⟨self, 2 + 1⟩ else none) (decide (2 = 0) && fixedStart)))
    (sawSettings K 0 nd) (by simp) rfl rfl
  simp only [Polymer.new]
  rw [show buildLoop m fuel self 3 sequence fixedStart start orientation 3
      (List.replicate 3 default) (sawSettings K 0 nd)
    = buildLoop m fuel self 3 sequence fixedStart start orientation 2
      ((List.replicate 3 (default : Particle K)).set 2
        (Particle.new start ParticleType.AMINO_ACID (sequence.getD 2 (Char.ofNat 0))
          (if 2 + 1 < 3 then some ⟨self, 2 + 1⟩ else none) (decide (2 = 0) && fixedStart)))
      (sawSettings K 0 nd) from by
        rw [buildLoop]
        simp only [placeBead, if_neg hne, if_true], hb]

end SelfAvoidingWalk

/-! ## Harmonic law, diagnostic counters and cutoffs -/

section CountersAndCutoffs

variable {K : Type} [LinearOrderedField K]

open Vector3D

/-- C11: the harmonic bond force is exactly `-r`, and with the harmonic law
selected `forceBond` returns `-r` and hands back the settings, all diagnostic
counters included, unchanged. -/
theorem forceBond_hooke (m : MathLib K) (ws : WorldSettings K) (r : Vector3D K)
    (hk : ws.typeForceBond = BondType.BOND_HOOKE) :
    forceBondHooke r = -r ∧ forceBond m ws r = (-r, ws) := by
  refine ⟨rfl, ?_⟩
  simp [forceBond, hk, forceBondHooke]

theorem forceBond_hooke_witness :
    (sampleSettings ℚ).typeForceBond = BondType.BOND_HOOKE
      ∧ forceBondHooke (⟨1, -2, 3⟩ : Vector3D ℚ) = -⟨1, -2, 3⟩
      ∧ forceBond ⟨fun _ => 0, fun _ => 1⟩ (sampleSettings ℚ) ⟨1, -2, 3⟩
          = (-⟨1, -2, 3⟩, sampleSettings ℚ) :=
  ⟨rfl, forceBond_hooke ⟨fun _ => 0, fun _ => 1⟩ (sampleSettings ℚ) ⟨1, -2, 3⟩ rfl⟩

/-- C12: every call of `forceBondFENE` raises `totalCountFENE` by exactly one,
leaves `errorCountFENE` unchanged when `|r|^2 < maxFENELengthSquared`, never
lowers either counter and does not touch `totalCountLJ`. -/
theorem forceBondFENE_counters (ws : WorldSettings K) (r : Vector3D K) :
    (forceBondFENE ws r).2.totalCountFENE = ws.totalCountFENE + 1
      ∧ (magnitudeSquared r < ws.maxFENELengthSquared →
          (forceBondFENE ws r).2.errorCountFENE = ws.errorCountFENE)
      ∧ ws.totalCountFENE ≤ (forceBondFENE ws r).2.totalCountFENE
      ∧ ws.errorCountFENE ≤ (forceBondFENE ws r).2.errorCountFENE
      ∧ (forceBondFENE ws r).2.totalCountLJ = ws.totalCountLJ := by
  by_cases h : magnitudeSquared r ≥ ws.maxFENELengthSquared
  · have hn : ¬ magnitudeSquared r < ws.maxFENELengthSquared := not_lt.mpr h
    simp [forceBondFENE, h, hn]
  · simp [forceBondFENE, h]

/-- C12 on concrete data, below the maximum length (`|r|^2 = 1 < 4`). -/
theorem forceBondFENE_counters_witness :
    magnitudeSquared (⟨1, 0, 0⟩ : Vector3D ℚ) < (sampleSettings ℚ).maxFENELengthSquared
      ∧ (forceBondFENE (sampleSettings ℚ) ⟨1, 0, 0⟩).2.totalCountFENE
          = (sampleSettings ℚ).totalCountFENE + 1
      ∧ (forceBondFENE (sampleSettings ℚ) ⟨1, 0, 0⟩).2.errorCountFENE
          = (sampleSettings ℚ).errorCountFENE :=
  have h : magnitudeSquared (⟨1, 0, 0⟩ : Vector3D ℚ)
      < (sampleSettings ℚ).maxFENELengthSquared := by
    norm_num [magnitudeSquared, sampleSettings]
  ⟨h, (forceBondFENE_counters (sampleSettings ℚ) ⟨1, 0, 0⟩).1,
    (forceBondFENE_counters (sampleSettings ℚ) ⟨1, 0, 0⟩).2.1 h⟩

/-- C13: `forceLJ86Repulsive` and `forceLJ126Repulsive` raise `totalCountLJ` by
exactly one when `|r|^2 <= 1.5 * size^2`, leave it unchanged when
`|r|^2 > 1.5 * size^2`, and never change the two FENE counters. -/
theorem repulsive_counters (ws : WorldSettings K) (r : Vector3D K) (size : K) :
    (magnitudeSquared r ≤ 1.5 * size ^ 2 →
        (forceLJ86Repulsive ws r size).2.totalCountLJ = ws.totalCountLJ + 1
          ∧ (forceLJ126Repulsive ws r size).2.totalCountLJ = ws.totalCountLJ + 1)
      ∧ (magnitudeSquared r > 1.5 * size ^ 2 →
        (forceLJ86Repulsive ws r size).2.totalCountLJ = ws.totalCountLJ
          ∧ (forceLJ126Repulsive ws r size).2.totalCountLJ = ws.totalCountLJ)
      ∧ (forceLJ86Repulsive ws r size).2.totalCountFENE = ws.totalCountFENE
      ∧ (forceLJ86Repulsive ws r size).2.errorCountFENE = ws.errorCountFENE
      ∧ (forceLJ126Repulsive ws r size).2.totalCountFENE = ws.totalCountFENE
      ∧ (forceLJ126Repulsive ws r size).2.errorCountFENE = ws.errorCountFENE := by
  have hc : 3 * size * size / 2 = 1.5 * size ^ 2 := by norm_num; ring
  by_cases h : magnitudeSquared r > 1.5 * size ^ 2
  · have h2 : magnitudeSquared r > 3 * size * size / 2 := by rw [hc]; exact h
    have hn : ¬ magnitudeSquared r ≤ 1.5 * size ^ 2 := not_le.mpr h
    refine ⟨fun hle => absurd hle hn, fun _ => ?_, ?_, ?_, ?_, ?_⟩ <;>
      simp [forceLJ86Repulsive, forceLJ126Repulsive, h2]
  · have h2 : ¬ magnitudeSquared r > 3 * size * size / 2 := by rw [hc]; exact h
    refine ⟨fun _ => ?_, fun hgt => absurd hgt h, ?_, ?_, ?_, ?_⟩ <;>
      simp [forceLJ86Repulsive, forceLJ126Repulsive, h2]

/-- C13 on concrete data: one call inside the cutoff (`|r|^2 = 1`, `size = 1`)
and one beyond it (`|r|^2 = 4`). -/
theorem repulsive_counters_witness :
    magnitudeSquared (⟨1, 0, 0⟩ : Vector3D ℚ) ≤ 1.5 * (1 : ℚ) ^ 2
      ∧ (forceLJ86Repulsive (sampleSettings ℚ) ⟨1, 0, 0⟩ 1).2.totalCountLJ
          = (sampleSettings ℚ).totalCountLJ + 1
      ∧ (forceLJ126Repulsive (sampleSettings ℚ) ⟨1, 0, 0⟩ 1).2.totalCountLJ
          = (sampleSettings ℚ).totalCountLJ + 1
      ∧ magnitudeSquared (⟨2, 0, 0⟩ : Vector3D ℚ) > 1.5 * (1 : ℚ) ^ 2
      ∧ (forceLJ86Repulsive (sampleSettings ℚ) ⟨2, 0, 0⟩ 1).2.totalCountLJ
          = (sampleSettings ℚ).totalCountLJ
      ∧ (forceLJ126Repulsive (sampleSettings ℚ) ⟨2, 0, 0⟩ 1).2.totalCountLJ
          = (sampleSettings ℚ).totalCountLJ :=
  have h1 : magnitudeSquared (⟨1, 0, 0⟩ : Vector3D ℚ) ≤ 1.5 * (1 : ℚ) ^ 2 := by
    norm_num [magnitudeSquared]
  have h2 : magnitudeSquared (⟨2, 0, 0⟩ : Vector3D ℚ) > 1.5 * (1 : ℚ) ^ 2 := by
    norm_num [magnitudeSquared]
  ⟨h1, ((repulsive_counters (sampleSettings ℚ) ⟨1, 0, 0⟩ 1).1 h1).1,
    ((repulsive_counters (sampleSettings ℚ) ⟨1, 0, 0⟩ 1).1 h1).2, h2,
    ((repulsive_counters (sampleSettings ℚ) ⟨2, 0, 0⟩ 1).2.1 h2).1,
    ((repulsive_counters (sampleSettings ℚ) ⟨2, 0, 0⟩ 1).2.1 h2).2⟩

/-- C19: whenever `forceBondFENE` reaches its non-fallback branch (the test
`|r|^2 >= maxFENELengthSquared` fails), `maxFENELengthSquared` is positive, the
denominator `1 - |r|^2 / maxFENELengthSquared` lies in `(0, 1]`, in particular
is not zero, and the result is `-r` divided by it; this holds for every value
of `maxFENELengthSquared`, zero and negative ones included, for which the
fallback branch is always taken. -/
theorem forceBondFENE_denominator (ws : WorldSettings K) (r : Vector3D K)
    (h : ¬ magnitudeSquared r ≥ ws.maxFENELengthSquared) :
    0 < ws.maxFENELengthSquared
      ∧ 0 < 1 - magnitudeSquared r / ws.maxFENELengthSquared
      ∧ 1 - magnitudeSquared r / ws.maxFENELengthSquared ≤ 1
      ∧ 1 - magnitudeSquared r / ws.maxFENELengthSquared ≠ 0
      ∧ (forceBondFENE ws r).1
          = divScalar (-r) (1 - magnitudeSquared r / ws.maxFENELengthSquared) := by
  have hlt : magnitudeSquared r < ws.maxFENELengthSquared := not_le.mp h
  have h0 : 0 ≤ magnitudeSquared r := magnitudeSquared_nonneg r
  have hM : 0 < ws.maxFENELengthSquared := lt_of_le_of_lt h0 hlt
  have hq1 : magnitudeSquared r / ws.maxFENELengthSquared < 1 := (div_lt_one hM).mpr hlt
  have hq0 : 0 ≤ magnitudeSquared r / ws.maxFENELengthSquared := div_nonneg h0 hM.le
  have hd : 0 < 1 - magnitudeSquared r / ws.maxFENELengthSquared := by linarith
  refine ⟨hM, hd, by linarith, ne_of_gt hd, ?_⟩
  simp [forceBondFENE, h]

theorem forceBondFENE_denominator_witness :
    ¬ magnitudeSquared (⟨1, 0, 0⟩ : Vector3D ℚ) ≥ (sampleSettings ℚ).maxFENELengthSquared
      ∧ 0 < (sampleSettings ℚ).maxFENELengthSquared
      ∧ 0 < 1 - magnitudeSquared (⟨1, 0, 0⟩ : Vector3D ℚ)
            / (sampleSettings ℚ).maxFENELengthSquared
      ∧ 1 - magnitudeSquared (⟨1, 0, 0⟩ : Vector3D ℚ)
            / (sampleSettings ℚ).maxFENELengthSquared ≤ 1
      ∧ 1 - magnitudeSquared (⟨1, 0, 0⟩ : Vector3D ℚ)
            / (sampleSettings ℚ).maxFENELengthSquared ≠ 0
      ∧ (forceBondFENE (sampleSettings ℚ) ⟨1, 0, 0⟩).1
          = divScalar (-⟨1, 0, 0⟩) (1 - magnitudeSquared (⟨1, 0, 0⟩ : Vector3D ℚ)
              / (sampleSettings ℚ).maxFENELengthSquared) :=
  have h : ¬ magnitudeSquared (⟨1, 0, 0⟩ : Vector3D ℚ)
      ≥ (sampleSettings ℚ).maxFENELengthSquared := by
    norm_num [magnitudeSquared, sampleSettings]
  ⟨h, forceBondFENE_denominator (sampleSettings ℚ) ⟨1, 0, 0⟩ h⟩

/-- C20: for `size != 0` and `|r|^2` exactly `1.5 * size^2`, both repulsive laws
take their in-range branch (the evaluation counter goes up by one) and return
exactly the zero vector. -/
theorem repulsive_zero_at_cutoff (ws : WorldSettings K) (r : Vector3D K) (size : K)
    (hsize : size ≠ 0) (hr : magnitudeSquared r = 1.5 * size ^ 2) :
    (forceLJ86Repulsive ws r size).1 = 0
      ∧ (forceLJ86Repulsive ws r size).2.totalCountLJ = ws.totalCountLJ + 1
      ∧ (forceLJ126Repulsive ws r size).1 = 0
      ∧ (forceLJ126Repulsive ws r size).2.totalCountLJ = ws.totalCountLJ + 1 := by
  have hc : 3 * size * size / 2 = 1.5 * size ^ 2 := by norm_num; ring
  have h2 : ¬ magnitudeSquared r > 3 * size * size / 2 := by
    rw [hc, hr]
    exact lt_irrefl _
  have hs2 : size ^ 2 ≠ 0 := pow_ne_zero 2 hsize
  have hx : 3 * size * size / magnitudeSquared r = 2 := by
    rw [hr]
    field_simp
    norm_num
    ring
  have h86 : (0.5 : K) * 2 ^ 4 - 2 ^ 3 = 0 := by norm_num
  have h126 : (0.125 : K) * (2 ^ 3) ^ 2 - 2 ^ 3 = 0 := by norm_num
  refine ⟨?_, ?_, ?_, ?_⟩
  · simp only [forceLJ86Repulsive, if_neg h2, hx, h86]
    ext <;> simp [divScalar, mulScalar]
  · simp [forceLJ86Repulsive, h2]
  · simp only [forceLJ126Repulsive, if_neg h2, hx, h126]
    ext <;> simp [divScalar, mulScalar]
  · simp [forceLJ126Repulsive, h2]

theorem repulsive_zero_at_cutoff_witness :
    (2 : ℚ) ≠ 0 ∧ magnitudeSquared (⟨1, 1, 2⟩ : Vector3D ℚ) = 1.5 * (2 : ℚ) ^ 2
      ∧ (forceLJ86Repulsive (sampleSettings ℚ) ⟨1, 1, 2⟩ 2).1 = 0
      ∧ (forceLJ86Repulsive (sampleSettings ℚ) ⟨1, 1, 2⟩ 2).2.totalCountLJ
          = (sampleSettings ℚ).totalCountLJ + 1
      ∧ (forceLJ126Repulsive (sampleSettings ℚ) ⟨1, 1, 2⟩ 2).1 = 0
      ∧ (forceLJ126Repulsive (sampleSettings ℚ) ⟨1, 1, 2⟩ 2).2.totalCountLJ
          = (sampleSettings ℚ).totalCountLJ + 1 :=
  have h : magnitudeSquared (⟨1, 1, 2⟩ : Vector3D ℚ) = 1.5 * (2 : ℚ) ^ 2 := by
    norm_num [magnitudeSquared]
  ⟨two_ne_zero, h, repulsive_zero_at_cutoff (sampleSettings ℚ) ⟨1, 1, 2⟩ 2 two_ne_zero h⟩

end CountersAndCutoffs

/-! ## Boundary force -/

section Boundary

variable {K : Type} [LinearOrderedField K]

open Vector3D

end Boundary

/-! ## Same-range cohesive law -/

section SameRange

variable {K : Type} [LinearOrderedField K]

open Vector3D

theorem real_sqrt_four : Real.sqrt 4 = 2 := by
  rw [show (4 : ℝ) = 2 ^ 2 by norm_num]
  exact Real.sqrt_sq (by norm_num)

/-- C16, refuted as stated, with `bondLength = 1`, `hydrophobicCutoff = 3`,
`hydrophobicStrength = 1` and `r = (2, 0, 0)`.  For `size = 1/2` the effective
squared distance is `51/8`, above the claimed upper cutoff
`(size * bondLength * hydrophobicCutoff)^2 = 9/4`, yet the law does not return
the zero vector: its x component is negative.  For `size = 1` the effective
squared distance is `4`, inside both ranges, and the x component of the force
is `-405/4096`, not the `-135/2048` that the claimed magnitude
`0.5 * hydrophobicStrength * (0.5 * (3/4)^4 - (3/4)^3)` gives. -/
theorem forceLJ86AttractiveSameRange_beyond_scaled_cutoff :
    effectiveDistanceSquared ⟨Real.sqrt, Real.exp⟩ (sampleSettings ℝ) ⟨2, 0, 0⟩ (1 / 2) = 51 / 8
      ∧ ¬ (effectiveDistanceSquared ⟨Real.sqrt, Real.exp⟩ (sampleSettings ℝ) ⟨2, 0, 0⟩ (1 / 2)
            ≤ (1 / 2 * (sampleSettings ℝ).bondLength * (sampleSettings ℝ).hydrophobicCutoff) ^ 2)
      ∧ (forceLJ86AttractiveSameRange ⟨Real.sqrt, Real.exp⟩ (sampleSettings ℝ)
            ⟨2, 0, 0⟩ (1 / 2)).x < 0
      ∧ forceLJ86AttractiveSameRange ⟨Real.sqrt, Real.exp⟩ (sampleSettings ℝ)
            ⟨2, 0, 0⟩ (1 / 2) ≠ 0
      ∧ effectiveDistanceSquared ⟨Real.sqrt, Real.exp⟩ (sampleSettings ℝ) ⟨2, 0, 0⟩ 1 = 4
      ∧ (forceLJ86AttractiveSameRange ⟨Real.sqrt, Real.exp⟩ (sampleSettings ℝ)
            ⟨2, 0, 0⟩ 1).x = -405 / 4096
      ∧ (divScalar (mulScalar (⟨2, 0, 0⟩ : Vector3D ℝ)
            (0.5 * (sampleSettings ℝ).hydrophobicStrength
              * (0.5 * (3 / 4) ^ 4 - (3 / 4) ^ 3))) 4).x = -135 / 2048 := by
  have hd : effectiveDistanceSquared ⟨Real.sqrt, Real.exp⟩ (sampleSettings ℝ) ⟨2, 0, 0⟩ (1 / 2)
      = 51 / 8 := by
    simp only [effectiveDistanceSquared, magnitude, magnitudeSquared, sampleSettings]
    rw [show (2 : ℝ) * 2 + 0 * 0 + 0 * 0 = 4 by norm_num, real_sqrt_four]
    norm_num
  have hd1 : effectiveDistanceSquared ⟨Real.sqrt, Real.exp⟩ (sampleSettings ℝ) ⟨2, 0, 0⟩ 1
      = 4 := by
    simp only [effectiveDistanceSquared, magnitude, magnitudeSquared, sampleSettings]
    norm_num
  have hx : (forceLJ86AttractiveSameRange ⟨Real.sqrt, Real.exp⟩ (sampleSettings ℝ)
      ⟨2, 0, 0⟩ (1 / 2)).x < 0 := by
    have hlo : ¬ ((51 / 8 : ℝ) < 3 / 2 ∨ (51 / 8 : ℝ) > 1 * 1 * 3 * 3) := by norm_num
    simp only [forceLJ86AttractiveSameRange]
    rw [show magnitudeSquared (⟨2, 0, 0⟩ : Vector3D ℝ) + (1 - 1 / 2) * (1 - 1 / 2) * 1.5
        + 2 * magnitude ⟨Real.sqrt, Real.exp⟩ (⟨2, 0, 0⟩ : Vector3D ℝ) * (1 - 1 / 2)
          * (sampleSettings ℝ).bondLength = 51 / 8 from hd]
    simp only [sampleSettings, if_neg hlo]
    norm_num [divScalar, mulScalar]
  have hx1 : (forceLJ86AttractiveSameRange ⟨Real.sqrt, Real.exp⟩ (sampleSettings ℝ)
      ⟨2, 0, 0⟩ 1).x = -405 / 4096 := by
    have hlo : ¬ ((4 : ℝ) < 3 / 2 ∨ (4 : ℝ) > 1 * 1 * 3 * 3) := by norm_num
    simp only [forceLJ86AttractiveSameRange]
    rw [show magnitudeSquared (⟨2, 0, 0⟩ : Vector3D ℝ) + (1 - 1) * (1 - 1) * 1.5
        + 2 * magnitude ⟨Real.sqrt, Real.exp⟩ (⟨2, 0, 0⟩ : Vector3D ℝ) * (1 - 1)
          * (sampleSettings ℝ).bondLength = 4 from hd1]
    simp only [sampleSettings, if_neg hlo]
    norm_num [divScalar, mulScalar]
  refine ⟨hd, ?_, hx, ?_, hd1, hx1, ?_⟩
  · rw [hd]
    norm_num [sampleSettings]
  · intro h
    rw [h] at hx
    exact lt_irrefl _ hx
  · norm_num [divScalar, mulScalar, sampleSettings]

/-- C16 (amended): with the effective squared distance
`d2 = |r|^2 + 1.5 * (1 - size)^2 + 2 * |r| * (1 - size) * bondLength`, the
same-range law returns the zero vector unless
`1.5 <= d2 <= (bondLength * hydrophobicCutoff)^2` (both cutoffs independent of
`size`), and in range returns `r * M / d2`, where `M` is a fixed positive
multiple of `hydrophobicStrength * (0.5 * (3 / d2)^4 - (3 / d2)^3)`. -/
theorem forceLJ86AttractiveSameRange_spec :
    ∃ k : K, 0 < k ∧ ∀ (m : MathLib K) (ws : WorldSettings K) (r : Vector3D K) (size : K),
      (¬ (1.5 ≤ effectiveDistanceSquared m ws r size
            ∧ effectiveDistanceSquared m ws r size
                ≤ (ws.bondLength * ws.hydrophobicCutoff) ^ 2) →
          forceLJ86AttractiveSameRange m ws r size = 0)
        ∧ (1.5 ≤ effectiveDistanceSquared m ws r size →
            effectiveDistanceSquared m ws r size ≤ (ws.bondLength * ws.hydrophobicCutoff) ^ 2 →
            forceLJ86AttractiveSameRange m ws r size
              = divScalar (mulScalar r (k * (ws.hydrophobicStrength
                  * (0.5 * (3 / effectiveDistanceSquared m ws r size) ^ 4
                      - (3 / effectiveDistanceSquared m ws r size) ^ 3))))
                  (effectiveDistanceSquared m ws r size)) := by
  refine ⟨0.75, by norm_num, fun m ws r size => ?_⟩
  have hup : ws.bondLength * ws.bondLength * ws.hydrophobicCutoff * ws.hydrophobicCutoff
      = (ws.bondLength * ws.hydrophobicCutoff) ^ 2 := by ring
  have hlo : (3 : K) / 2 = 1.5 := by norm_num
  constructor
  · intro h
    have hc : effectiveDistanceSquared m ws r size < 3 / 2
        ∨ effectiveDistanceSquared m ws r size
          > ws.bondLength * ws.bondLength * ws.hydrophobicCutoff * ws.hydrophobicCutoff := by
      rw [hup, hlo]
      by_contra hcon
      rw [not_or, not_lt, not_lt] at hcon
      exact h hcon
    unfold effectiveDistanceSquared at hc
    simp only [forceLJ86AttractiveSameRange, if_pos hc]
  · intro h1 h2
    have hc : ¬ (effectiveDistanceSquared m ws r size < 3 / 2
        ∨ effectiveDistanceSquared m ws r size
          > ws.bondLength * ws.bondLength * ws.hydrophobicCutoff * ws.hydrophobicCutoff) := by
      rw [hup, hlo, not_or, not_lt, not_lt]
      exact ⟨h1, h2⟩
    unfold effectiveDistanceSquared at hc ⊢
    simp only [forceLJ86AttractiveSameRange, if_neg hc]
    congr 2
    ring

end SameRange

/-! ## Bead registration, tags and the immovable flag -/

section Registration

variable {K : Type} [LinearOrderedField K]

open Vector3D

theorem placeBead_total (m : MathLib K) (fuel : Nat) (ws : WorldSettings K) (N : Nat)
    (start orientation : Vector3D K) (chain : List (Particle K)) (i : Nat)
    (hic : ws.initialCondition ≠ InitialCondition.IC_SAW) :
    ∃ pw, placeBead m fuel ws N start orientation chain i = some pw
      ∧ pw.2.initialCondition = ws.initialCondition := by
  unfold placeBead
  by_cases h1 : ws.initialCondition = InitialCondition.IC_LINE
  · rw [if_pos h1]
    exact ⟨_, rfl, rfl⟩
  · rw [if_neg h1]
    by_cases h2 : i + 1 = N
    · rw [if_pos h2]
      exact ⟨_, rfl, rfl⟩
    · rw [if_neg h2, if_neg hic]
      by_cases h3 : ws.initialCondition = InitialCondition.IC_RW
      · simp only [if_pos h3]
        exact ⟨_, rfl, rfl⟩
      · simp only [if_neg h3]
        exact ⟨_, rfl, rfl⟩

theorem buildLoop_total (m : MathLib K) (fuel self N : Nat) (sequence : List Char)
    (fixedStart : Bool) (start orientation : Vector3D K) :
    ∀ (k : Nat) (chain : List (Particle K)) (ws : WorldSettings K),
      ws.initialCondition ≠ InitialCondition.IC_SAW →
      ∃ res, buildLoop m fuel self N sequence fixedStart start orientation k chain ws
        = some res := by
  intro k
  induction k with
  | zero =>
    intro chain ws _
    exact ⟨_, rfl⟩
  | succ k ih =>
    intro chain ws hic
    obtain ⟨pw, hpw, hpic⟩ := placeBead_total m fuel ws N start orientation chain k hic
    simp only [buildLoop, hpw]
    exact ih _ pw.2 (by rw [hpic]; exact hic)

theorem buildLoop_fields (m : MathLib K) (fuel self N : Nat) (sequence : List Char)
    (fixedStart : Bool) (start orientation : Vector3D K) :
    ∀ (k : Nat) (chain : List (Particle K)) (ws : WorldSettings K)
      (chain' : List (Particle K)) (ws' : WorldSettings K),
      buildLoop m fuel self N sequence fixedStart start orientation k chain ws
        = some (chain', ws') →
      chain'.length = chain.length
        ∧ (∀ i, i < k → i < chain.length →
            (chain'.getD i default).tag = sequence.getD i (Char.ofNat 0)
              ∧ (chain'.getD i default).fixed = (decide (i = 0) && fixedStart))
        ∧ (∀ i, k ≤ i → chain'.getD i default = chain.getD i default) := by
  intro k
  induction k with
  | zero =>
    intro chain ws chain' ws' h
    simp only [buildLoop, Option.some.injEq, Prod.mk.injEq] at h
    obtain ⟨hc, -⟩ := h
    subst hc
    exact ⟨rfl, fun i hi => absurd hi (Nat.not_lt_zero i), fun i _ => rfl⟩
  | succ k ih =>
    intro chain ws chain' ws' h
    simp only [buildLoop] at h
    cases hpb : placeBead m fuel ws N start orientation chain k with
    | none =>
      rw [hpb] at h
      simp at h
    | some pw =>
      rw [hpb] at h
      simp only at h
      obtain ⟨hl, hp, hk⟩ := ih _ pw.2 chain' ws' h
      rw [List.length_set] at hl hp
      refine ⟨hl, fun i hi hil => ?_, fun i hi => ?_⟩
      · rcases Nat.lt_succ_iff_lt_or_eq.mp hi with h1 | h1
        · exact hp i h1 hil
        · subst h1
          rw [hk i (le_refl i), getD_set_eq, if_pos ⟨rfl, hil⟩]
          exact ⟨rfl, rfl⟩
      · rw [hk i (by omega), getD_set_eq]
        have hne : ¬ (k = i ∧ k < chain.length) := by omega
        rw [if_neg hne]

theorem register_fold (self : Nat) :
    ∀ (n : Nat) (particles : List ParticleRef),
      (List.range n).foldl (fun ps i => ps ++ [(⟨self, i⟩ : ParticleRef)]) particles
        = particles ++ (List.range n).map (fun i => (⟨self, i⟩ : ParticleRef)) := by
  intro n
  induction n with
  | zero =>
    intro particles
    simp
  | succ n ih =>
    intro particles
    rw [List.range_succ, List.foldl_append, ih, List.map_append, ← List.append_assoc]
    rfl

/-- C15: under every policy other than the self-avoiding walk the constructor
finishes, and whenever it finishes (under any policy) the caller's collection
is its previous contents followed by references to beads `0, 1, ..., N-1` of
the new chain in that order, the chain has `N` beads, bead `i` carries the tag
`sequence[i]`, and bead `i` is immovable exactly when `i = 0` and the
immovable-start flag is set. -/
theorem construction_registration (m : MathLib K) (fuel : Nat) (ws : WorldSettings K)
    (self N : Nat) (sequence : List Char) (random fixedStart : Bool)
    (start orientation : Vector3D K) (particles : List ParticleRef) :
    (ws.initialCondition ≠ InitialCondition.IC_SAW →
        ∃ res, Polymer.new m fuel ws self N sequence random fixedStart start orientation
          particles = some res)
      ∧ ∀ (p : Polymer K) (ps : List ParticleRef) (ws' : WorldSettings K),
          Polymer.new m fuel ws self N sequence random fixedStart start orientation particles
            = some (p, ps, ws') →
          ps = particles ++ (List.range N).map (fun i => (⟨self, i⟩ : ParticleRef))
            ∧ p.noOfMonomers = N ∧ p.chain.length = N
            ∧ ∀ i, i < N →
                (p.chain.getD i default).tag = sequence.getD i (Char.ofNat 0)
                  ∧ (i < sequence.length → sequence[i]? = some (p.chain.getD i default).tag)
                  ∧ ((p.chain.getD i default).fixed = true ↔ (i = 0 ∧ fixedStart = true)) := by
  constructor
  · intro hic
    obtain ⟨res, hres⟩ := buildLoop_total m fuel self N sequence fixedStart start orientation
      N (List.replicate N default) ws hic
    simp only [Polymer.new, hres]
    exact ⟨_, rfl⟩
  · intro p ps ws' hfin
    simp only [Polymer.new] at hfin
    cases hbl : buildLoop m fuel self N sequence fixedStart start orientation N
        (List.replicate N default) ws with
    | none =>
      rw [hbl] at hfin
      simp at hfin
    | some cw =>
      rw [hbl] at hfin
      simp only [Option.some.injEq, Prod.mk.injEq] at hfin
      obtain ⟨hp, hps, -⟩ := hfin
      subst hp
      obtain ⟨hl, hf, -⟩ := buildLoop_fields m fuel self N sequence fixedStart start
        orientation N (List.replicate N default) ws cw.1 cw.2 hbl
      rw [List.length_replicate] at hl hf
      refine ⟨?_, rfl, hl, fun i hi => ?_⟩
      · rw [← hps, register_fold]
      · obtain ⟨ht, hx⟩ := hf i hi hi
        refine ⟨ht, fun his => ?_, ?_⟩
        · show sequence[i]? = some (cw.1.getD i default).tag
          rw [ht, List.getD_eq_getElem?_getD, List.getElem?_eq_getElem his]
          rfl
        · show (cw.1.getD i default).fixed = true ↔ _
          rw [hx]
          simp

/-- C15 on concrete data: a three-bead straight-line chain with the
immovable-start flag set, registered after one earlier entry. -/
theorem construction_registration_witness :
    ∃ p ps ws', Polymer.new ⟨fun _ => 0, fun _ => 1⟩ 0 (sampleSettings ℚ) 7 3
        [Char.ofNat 65, Char.ofNat 66, Char.ofNat 67] false true ⟨0, 0, 0⟩ ⟨1, 0, 0⟩ [⟨4, 0⟩]
        = some (p, ps, ws')
      ∧ ps = [⟨4, 0⟩, ⟨7, 0⟩, ⟨7, 1⟩, ⟨7, 2⟩]
      ∧ (p.chain.getD 1 default).tag = Char.ofNat 66
      ∧ (p.chain.getD 0 default).fixed = true
      ∧ (p.chain.getD 1 default).fixed = false :=
  ((construction_registration ⟨fun _ => 0, fun _ => 1⟩ 0 (sampleSettings ℚ) 7 3
      [Char.ofNat 65, Char.ofNat 66, Char.ofNat 67] false true ⟨0, 0, 0⟩ ⟨1, 0, 0⟩ [⟨4, 0⟩]).1
    (by decide)).elim fun res hres =>
      have h := (construction_registration ⟨fun _ => 0, fun _ => 1⟩ 0 (sampleSettings ℚ) 7 3
        [Char.ofNat 65, Char.ofNat 66, Char.ofNat 67] false true ⟨0, 0, 0⟩ ⟨1, 0, 0⟩
        [⟨4, 0⟩]).2 res.1 res.2.1 res.2.2 hres
      ⟨res.1, res.2.1, res.2.2, hres, h.1, (h.2.2.2 1 (by decide)).1,
        ((h.2.2.2 0 (by decide)).2.2).mpr ⟨rfl, rfl⟩,
        Bool.eq_false_iff.mpr fun hf =>
          absurd (((h.2.2.2 1 (by decide)).2.2).mp hf).1 (by decide)⟩

end Registration

/-! ## Cancellation of the bonded forces -/

section Cancellation

variable {K : Type} [LinearOrderedField K]

open Vector3D

theorem Vector3D.add_sub_cancel_left (a b : Vector3D K) : a + b - a = b := by
  ext <;> simp

end Cancellation

/-! ## FENE counters under `simulate` -/

section SimulateCounters

variable {K : Type} [LinearOrderedField K]

open Vector3D

theorem forceBond_fene_counters (m : MathLib K) (ws : WorldSettings K) (v : Vector3D K)
    (hf : ws.typeForceBond = BondType.BOND_FENE) :
    (forceBond m ws v).2.totalCountFENE = ws.totalCountFENE + 1
      ∧ (forceBond m ws v).2.errorCountFENE
          = ws.errorCountFENE + feneViolation ws.maxFENELengthSquared v := by
  have h1 : ¬ ws.typeForceBond = BondType.BOND_HOOKE := by rw [hf]; decide
  have h2 : ¬ ws.typeForceBond = BondType.BOND_EXP := by rw [hf]; decide
  simp only [forceBond, if_neg h1, if_neg h2, forceBondFENE, feneViolation]
  split_ifs <;> simp

theorem feneViolation_comm (M : K) (a b : Vector3D K) :
    feneViolation M (a - b) = feneViolation M (b - a) := by
  simp only [feneViolation, magnitudeSquared_sub_comm a b]

theorem simulateStep_counters (m : MathLib K) (M : K) (pos : Nat → Vector3D K) :
    ∀ (n s : Nat) (c : List (Particle K)) (w : WorldSettings K),
      w.typeForceBond = BondType.BOND_FENE → w.maxFENELengthSquared = M →
      (∀ j, (c.getD j default).r = pos j) →
      ((List.range' s n).foldl (simulateStep m) (c, w)).2.totalCountFENE
          = w.totalCountFENE + 2 * n
        ∧ ((List.range' s n).foldl (simulateStep m) (c, w)).2.errorCountFENE
          = w.errorCountFENE + ((List.range' s n).map (fun j =>
              feneViolation M (pos j - pos (j + 1))
                + feneViolation M (pos j - pos (j - 1)))).sum := by
  intro n
  induction n with
  | zero =>
    intro s c w _ _ _
    exact ⟨rfl, rfl⟩
  | succ n ih =>
    intro s c w hf hM hpos
    rw [List.range'_succ, List.foldl_cons, List.map_cons, List.sum_cons]
    have ha := forceBond_config m w ((c.getD s default).r - (c.getD (s + 1) default).r)
    have hb := forceBond_config m
      (forceBond m w ((c.getD s default).r - (c.getD (s + 1) default).r)).2
      ((c.getD s default).r - (c.getD (s - 1) default).r)
    have ca := forceBond_fene_counters m w
      ((c.getD s default).r - (c.getD (s + 1) default).r) hf
    have cb := forceBond_fene_counters m
      (forceBond m w ((c.getD s default).r - (c.getD (s + 1) default).r)).2
      ((c.getD s default).r - (c.getD (s - 1) default).r) (ha.1.trans hf)
    rw [ha.2, hM] at cb
    rw [hM] at ca
    simp only [hpos] at ca cb
    have hw1 : (simulateStep m (c, w) s).2.totalCountFENE = w.totalCountFENE + 2 := by
      simp only [simulateStep, hpos]
      rw [cb.1, ca.1]
    have hw2 : (simulateStep m (c, w) s).2.errorCountFENE
        = w.errorCountFENE + feneViolation M (pos s - pos (s + 1))
          + feneViolation M (pos s - pos (s - 1)) := by
      simp only [simulateStep, hpos]
      rw [cb.2, ca.2]
    obtain ⟨i1, i2⟩ := ih (s + 1) (simulateStep m (c, w) s).1 (simulateStep m (c, w) s).2
      (hb.1.trans (ha.1.trans hf)) (hb.2.trans (ha.2.trans hM))
      (fun j => (getD_set_addDr_r c s j _).trans (hpos j))
    rw [i1, i2, hw1, hw2]
    constructor <;> omega

theorem bond_sides_count (M : K) (pos : Nat → Vector3D K) :
    ∀ n : Nat,
      feneViolation M (pos 0 - pos 1)
          + ((List.range' 1 n).map (fun j =>
              feneViolation M (pos j - pos (j + 1))
                + feneViolation M (pos j - pos (j - 1)))).sum
          + feneViolation M (pos (n + 1) - pos n)
        = 2 * (List.range (n + 1)).countP
            (fun i => decide (magnitudeSquared (pos i - pos (i + 1)) ≥ M)) := by
  have hdec : ∀ i, (if decide (magnitudeSquared (pos i - pos (i + 1)) ≥ M) = true then 1 else 0)
      = feneViolation M (pos i - pos (i + 1)) := by
    intro i
    simp [feneViolation]
  intro n
  induction n with
  | zero =>
    simp only [List.range'_zero, List.map_nil, List.sum_nil, List.range_succ, List.range_zero,
      List.nil_append, List.countP_singleton, hdec, zero_add, add_zero]
    rw [feneViolation_comm M (pos 1) (pos 0)]
    omega
  | succ n ih =>
    rw [List.range'_1_concat, List.map_append, List.sum_append, List.map_cons, List.map_nil,
      List.sum_singleton, List.range_succ, List.countP_append, List.countP_singleton, hdec]
    rw [show 1 + n - 1 = n by omega, show 1 + n = n + 1 by omega,
      feneViolation_comm M (pos (n + 1 + 1)) (pos (n + 1))]
    omega

/-- C14: with the FENE bond law selected, one `simulate` call on a chain of
`N >= 2` beads raises `totalCountFENE` by exactly `2 * (N - 1)` and
`errorCountFENE` by exactly twice the number of bonds whose squared length is
at least `maxFENELengthSquared`. -/
theorem simulate_fene_counters (m : MathLib K) (ws : WorldSettings K) (p : Polymer K) (t : K)
    (hf : ws.typeForceBond = BondType.BOND_FENE)
    (hwf : p.noOfMonomers = p.chain.length) (hN : 2 ≤ p.noOfMonomers) :
    (p.simulate m ws t).2.totalCountFENE = ws.totalCountFENE + 2 * (p.noOfMonomers - 1)
      ∧ (p.simulate m ws t).2.errorCountFENE
          = ws.errorCountFENE + 2 * overstretchedBonds ws p := by
  obtain ⟨N, c0⟩ := p
  simp only at hwf hN
  obtain ⟨n, hn⟩ : ∃ n, N = n + 2 := ⟨N - 2, by omega⟩
  subst hn
  have hgt : n + 2 > 1 := by omega
  have hf0 := forceBond_config m ws ((c0.getD 0 default).r - (c0.getD 1 default).r)
  have c0c := forceBond_fene_counters m ws ((c0.getD 0 default).r - (c0.getD 1 default).r) hf
  obtain ⟨k1, k2⟩ := simulateStep_counters m ws.maxFENELengthSquared
    (fun j => (c0.getD j default).r) n 1
    (c0.set 0 ((c0.getD 0 default).addDr
      (forceBond m ws ((c0.getD 0 default).r - (c0.getD 1 default).r)).1))
    (forceBond m ws ((c0.getD 0 default).r - (c0.getD 1 default).r)).2
    (hf0.1.trans hf) hf0.2 (fun j => getD_set_addDr_r c0 0 j _)
  obtain ⟨-, mt, mm, mr, -⟩ := simulateStep_fold m ws n 1
    (c0.set 0 ((c0.getD 0 default).addDr
      (forceBond m ws ((c0.getD 0 default).r - (c0.getD 1 default).r)).1))
    (forceBond m ws ((c0.getD 0 default).r - (c0.getD 1 default).r)).2 hf0.1 hf0.2
  have hcount := bond_sides_count ws.maxFENELengthSquared (fun j => (c0.getD j default).r) n
  simp only at hcount k2
  simp only [Polymer.simulate, if_pos hgt, Nat.add_sub_cancel,
    show n + 2 - 1 = n + 1 from rfl, overstretchedBonds]
  have cl := forceBond_fene_counters m
    ((List.range' 1 n).foldl (simulateStep m)
      (c0.set 0 ((c0.getD 0 default).addDr
        (forceBond m ws ((c0.getD 0 default).r - (c0.getD 1 default).r)).1),
      (forceBond m ws ((c0.getD 0 default).r - (c0.getD 1 default).r)).2)).2
    ((((List.range' 1 n).foldl (simulateStep m)
      (c0.set 0 ((c0.getD 0 default).addDr
        (forceBond m ws ((c0.getD 0 default).r - (c0.getD 1 default).r)).1),
      (forceBond m ws ((c0.getD 0 default).r - (c0.getD 1 default).r)).2)).1.getD (n + 1)
        default).r
      - (((List.range' 1 n).foldl (simulateStep m)
      (c0.set 0 ((c0.getD 0 default).addDr
        (forceBond m ws ((c0.getD 0 default).r - (c0.getD 1 default).r)).1),
      (forceBond m ws ((c0.getD 0 default).r - (c0.getD 1 default).r)).2)).1.getD n
        default).r) (mt.trans hf)
  rw [mm] at cl
  simp only [mr, getD_set_addDr_r] at cl ⊢
  rw [cl.1, cl.2, k1, k2, c0c.1, c0c.2]
  constructor <;> omega

/-- C14 on concrete data: three beads, bond 0 of squared length 1 and bond 1 of
squared length 9, maximum 4: four evaluations, two violations. -/
theorem simulate_fene_counters_witness :
    overstretchedBonds { sampleSettings ℚ with typeForceBond := BondType.BOND_FENE }
        ⟨3, [beadAt ⟨0, 0, 0⟩, beadAt ⟨0, 0, 1⟩, beadAt ⟨0, 3, 1⟩]⟩ = 1
      ∧ (Polymer.simulate ⟨fun _ => 0, fun _ => 1⟩
          { sampleSettings ℚ with typeForceBond := BondType.BOND_FENE }
          ⟨3, [beadAt ⟨0, 0, 0⟩, beadAt ⟨0, 0, 1⟩, beadAt ⟨0, 3, 1⟩]⟩ 0).2.totalCountFENE
        = 0 + 2 * (3 - 1)
      ∧ (Polymer.simulate ⟨fun _ => 0, fun _ => 1⟩
          { sampleSettings ℚ with typeForceBond := BondType.BOND_FENE }
          ⟨3, [beadAt ⟨0, 0, 0⟩, beadAt ⟨0, 0, 1⟩, beadAt ⟨0, 3, 1⟩]⟩ 0).2.errorCountFENE
        = 0 + 2 * overstretchedBonds
            { sampleSettings ℚ with typeForceBond := BondType.BOND_FENE }
            ⟨3, [beadAt ⟨0, 0, 0⟩, beadAt ⟨0, 0, 1⟩, beadAt ⟨0, 3, 1⟩]⟩ :=
  ⟨by norm_num [overstretchedBonds, sampleSettings, beadAt, Particle.new, magnitudeSquared,
      List.range_succ, List.countP_cons],
    simulate_fene_counters ⟨fun _ => 0, fun _ => 1⟩
      { sampleSettings ℚ with typeForceBond := BondType.BOND_FENE }
      ⟨3, [beadAt ⟨0, 0, 0⟩, beadAt ⟨0, 0, 1⟩, beadAt ⟨0, 3, 1⟩]⟩ 0 rfl rfl (by decide)⟩

end SimulateCounters

end NupModel
